import Mathlib

/-!
# Tor 0.0.2pre13, `src/or/config.c`: configuration ingestion

A shallow embedding of `config.c` (option table, assignment of raw entries,
merging of config file and command line, validation) and theorems about it.

Conventions of the embedding

* A C string is a Lean `String` holding the bytes before the terminating NUL;
  a `char *` that may be `NULL` is an `Option String`.
* `int` fields are `Int`; `config.c` does no arithmetic on option values.
* `double` values are `Double` below: NaN, the two infinities, or an exact
  rational, with the IEEE comparison rules (every comparison with NaN is false).
* A `struct config_line *` list is a `List config_line`; the `NULL` pointer is `[]`.
* What `config.c` calls but does not define (`atoi`, `atof`, `fopen`,
  constants of `or.h`) is a field of `Env`; an open stream is the list of the
  results the external tokenizer `parse_line_from_file` gives on it.
* Calls to the log sink and to the file primitives are collected, in program
  order, as a list of `Event`s returned next to the C return value.
-/

namespace TorConfig

/-! ## C library -/

/-- The value `tolower` returns, in the C locale, for a character. -/
def tolower (c : Char) : Nat :=
  if 65 ≤ c.toNat ∧ c.toNat ≤ 90 then c.toNat + 32 else c.toNat

/-- The libc `strlen`. -/
def strlen (s : String) : Nat := s.data.length

/-- The comparison loop of `strncasecmp` on the characters of two C strings:
at most `n` positions are compared, characters are compared after `tolower`,
and the end of a string compares as the NUL byte. -/
def strncasecmp_chars : List Char → List Char → Nat → Int
  | _, _, 0 => 0
  | [], [], _ + 1 => 0
  | [], b :: _, _ + 1 => 0 - (tolower b : Int)
  | a :: _, [], _ + 1 => (tolower a : Int) - 0
  | a :: as, b :: bs, n + 1 =>
    if tolower a = tolower b then strncasecmp_chars as bs n
    else (tolower a : Int) - (tolower b : Int)

/-- The libc `strncasecmp`. -/
def strncasecmp (s1 s2 : String) (n : Nat) : Int :=
  strncasecmp_chars s1.data s2.data n

/-- The comparison loop of `strcmp`; of a non-zero result only the sign is
fixed by C, and -1 and 1 stand for it. -/
def strcmp_chars : List Char → List Char → Int
  | [], [] => 0
  | [], _ :: _ => -1
  | _ :: _, [] => 1
  | a :: as, b :: bs =>
    if a = b then strcmp_chars as bs else if a.toNat < b.toNat then -1 else 1

/-- The libc `strcmp`. -/
def strcmp (s1 s2 : String) : Int := strcmp_chars s1.data s2.data

/-- The libc `strspn`: length of the longest initial segment of `s` made of
characters of `accept`. -/
def strspn (s accept : String) : Nat :=
  (s.data.takeWhile (fun c => accept.data.contains c)).length

/-- A copy of a C string (`tor_strdup`; allocation failure ends the process). -/
def tor_strdup (s : String) : String := s

/-- A model of the C `double`, as far as comparisons go. -/
inductive Double where
  | nan
  | ninf
  | pinf
  | fin (q : ℚ)
  deriving DecidableEq

/-- The C comparison `x < y` on doubles. -/
def Double.lt : Double → Double → Bool
  | .nan, _ => false
  | _, .nan => false
  | _, .ninf => false
  | .ninf, _ => true
  | .pinf, _ => false
  | .fin _, .pinf => true
  | .fin a, .fin b => decide (a < b)

/-- The C comparison `x <= y` on doubles. -/
def Double.le : Double → Double → Bool
  | .nan, _ => false
  | _, .nan => false
  | .ninf, _ => true
  | _, .pinf => true
  | .pinf, _ => false
  | .fin _, .ninf => false
  | .fin a, .fin b => decide (a ≤ b)

/-- The C comparison `x >= y` on doubles. -/
def Double.ge (x y : Double) : Bool := Double.le y x

/-- The double literal `0.0`. -/
def Double.zero : Double := .fin 0

/-- The double literal `1.0`. -/
def Double.one : Double := .fin 1

/-- The double literal `0.1`: the double nearest to one tenth. -/
def Double.tenth : Double := .fin (mkRat 3602879701896397 36028797018963968)

/-- The libc `isspace` in the C locale. -/
def isspace (c : Char) : Bool := c.toNat = 32 || (9 ≤ c.toNat && c.toNat ≤ 13)

/-- The libc `isdigit`. -/
def isdigit (c : Char) : Bool := 48 ≤ c.toNat && c.toNat ≤ 57

/-- The value of a decimal digit character. -/
def digit_value (c : Char) : Nat := c.toNat - 48

/-- Read the longest run of decimal digits: the number read so far and the
rest of the text. -/
def read_digits : List Char → Nat → Nat × List Char
  | [], acc => (acc, [])
  | c :: cs, acc =>
    if isdigit c then read_digits cs (10 * acc + digit_value c) else (acc, c :: cs)

/-- The libc `atoi` on text whose value fits an `int` (C leaves the other
case undefined, and libc wraps there): white space, an optional sign, then the
leading decimal digits; text without leading digits gives 0. The general
theorems take `atoi` from `Env`; this one serves the worked examples. -/
def atoi (s : String) : Int :=
  match s.data.dropWhile isspace with
  | '-' :: cs => - ((read_digits cs 0).1 : Int)
  | '+' :: cs => ((read_digits cs 0).1 : Int)
  | cs => ((read_digits cs 0).1 : Int)

/-- Whether the text starts with the given lower-case word, ignoring case. -/
def starts_with_word : List Char → List Char → Bool
  | _, [] => true
  | [], _ :: _ => false
  | c :: cs, w :: ws => tolower c = w.toNat && starts_with_word cs ws

/-- Read the digits after the decimal point: mantissa so far and number of
digits read. -/
def read_fraction : List Char → Nat → Nat → Nat × Nat × List Char
  | [], acc, k => (acc, k, [])
  | c :: cs, acc, k =>
    if isdigit c then read_fraction cs (10 * acc + digit_value c) (k + 1) else (acc, k, c :: cs)

/-- The exponent part `e[+-]digits` of a decimal floating constant, 0 when
there is none. -/
def read_exponent : List Char → Int
  | e :: cs =>
    if tolower e = 101 then
      match cs with
      | '-' :: d :: ds => if isdigit d then - ((read_digits (d :: ds) 0).1 : Int) else 0
      | '+' :: d :: ds => if isdigit d then ((read_digits (d :: ds) 0).1 : Int) else 0
      | d :: ds => if isdigit d then ((read_digits (d :: ds) 0).1 : Int) else 0
      | [] => 0
    else 0
  | [] => 0

/-- The libc `atof` (C99 `strtod`) on decimal text, `inf` and `nan`: white
space, an optional sign, then `nan`, `inf` or a decimal floating constant;
text without such a start gives 0.0. The value of a decimal constant is
given exactly, where libc rounds it to the nearest double (to an infinity or
to zero when it is out of range); hexadecimal constants are not covered. The
general theorems take `atof` from `Env`; this one serves the worked examples,
on text where it agrees with libc. -/
def atof (s : String) : Double :=
  let cs := s.data.dropWhile isspace
  let neg := cs.head? = some '-'
  let cs := if cs.head? = some '-' ∨ cs.head? = some '+' then cs.tail else cs
  if starts_with_word cs "nan".data then .nan
  else if starts_with_word cs "inf".data then (if neg then .ninf else .pinf)
  else
    let ip := read_digits cs 0
    let fp :=
      match ip.2 with
      | '.' :: ds => read_fraction ds ip.1 0
      | r => (ip.1, 0, r)
    if ip.2 = cs ∧ fp.2.1 = 0 then .fin 0
    else
      let e := read_exponent fp.2.2
      let num : Int := (fp.1 : Int) * 10 ^ e.toNat
      let den : Nat := 10 ^ (fp.2.1 + (- e).toNat)
      .fin (mkRat (if neg then - num else num) den)

/-! ## Data model -/

/-- Severities of the log sink used by `config.c`. -/
inductive Severity where
  | LOG_ERR
  | LOG_WARN
  | LOG_INFO
  | LOG_DEBUG
  deriving DecidableEq

export Severity (LOG_ERR LOG_WARN LOG_INFO LOG_DEBUG)

/-- The enumeration of types which option values can take. -/
inductive ConfigType where
  | CONFIG_TYPE_STRING
  | CONFIG_TYPE_CHAR
  | CONFIG_TYPE_INT
  | CONFIG_TYPE_LONG
  | CONFIG_TYPE_DOUBLE
  | CONFIG_TYPE_BOOL
  deriving DecidableEq

export ConfigType (CONFIG_TYPE_STRING CONFIG_TYPE_CHAR CONFIG_TYPE_INT CONFIG_TYPE_LONG
  CONFIG_TYPE_DOUBLE CONFIG_TYPE_BOOL)

/-- One raw entry: `struct config_line` without its `next` link. -/
structure config_line where
  key : String
  value : String
  deriving DecidableEq

/-- The fields of `or_options_t` that `config.c` reads or writes. -/
structure or_options_t where
  LogLevel : Option String
  LogFile : Option String
  DebugLogFile : Option String
  DataDirectory : Option String
  RouterFile : Option String
  PidFile : Option String
  Nickname : Option String
  Address : Option String
  ExitPolicy : Option String
  MaxConn : Int
  APPort : Int
  ORPort : Int
  DirPort : Int
  DirFetchPostPeriod : Int
  KeepalivePeriod : Int
  MaxOnionsPending : Int
  NewCircuitPeriod : Int
  TotalBandwidth : Int
  NumCpus : Int
  OnionRouter : Int
  TrafficShaping : Int
  LinkPadding : Int
  IgnoreVersion : Int
  RunAsDaemon : Int
  CoinWeight : Double
  loglevel : Severity
  deriving DecidableEq

/-- The address of an option field, `&options->X`, as passed to `config_compare`. -/
inductive Ptr where
  | LogLevel | LogFile | DebugLogFile | DataDirectory | RouterFile | PidFile
  | Nickname | Address | ExitPolicy
  | MaxConn | APPort | ORPort | DirPort | DirFetchPostPeriod | KeepalivePeriod
  | MaxOnionsPending | NewCircuitPeriod | TotalBandwidth | NumCpus
  | OnionRouter | TrafficShaping | LinkPadding | IgnoreVersion | RunAsDaemon
  | CoinWeight
  deriving DecidableEq

/-- The assignment `*(char **)arg = v`. -/
def store_string (arg : Ptr) (v : String) (o : or_options_t) : or_options_t :=
  match arg with
  | .LogLevel => { o with LogLevel := some v }
  | .LogFile => { o with LogFile := some v }
  | .DebugLogFile => { o with DebugLogFile := some v }
  | .DataDirectory => { o with DataDirectory := some v }
  | .RouterFile => { o with RouterFile := some v }
  | .PidFile => { o with PidFile := some v }
  | .Nickname => { o with Nickname := some v }
  | .Address => { o with Address := some v }
  | .ExitPolicy => { o with ExitPolicy := some v }
  | _ => o

/-- The assignment `*(int *)arg = v`. -/
def store_int (arg : Ptr) (v : Int) (o : or_options_t) : or_options_t :=
  match arg with
  | .MaxConn => { o with MaxConn := v }
  | .APPort => { o with APPort := v }
  | .ORPort => { o with ORPort := v }
  | .DirPort => { o with DirPort := v }
  | .DirFetchPostPeriod => { o with DirFetchPostPeriod := v }
  | .KeepalivePeriod => { o with KeepalivePeriod := v }
  | .MaxOnionsPending => { o with MaxOnionsPending := v }
  | .NewCircuitPeriod => { o with NewCircuitPeriod := v }
  | .TotalBandwidth => { o with TotalBandwidth := v }
  | .NumCpus => { o with NumCpus := v }
  | .OnionRouter => { o with OnionRouter := v }
  | .TrafficShaping => { o with TrafficShaping := v }
  | .LinkPadding => { o with LinkPadding := v }
  | .IgnoreVersion => { o with IgnoreVersion := v }
  | .RunAsDaemon => { o with RunAsDaemon := v }
  | _ => o

/-- The assignment `*(double *)arg = v`. -/
def store_double (arg : Ptr) (v : Double) (o : or_options_t) : or_options_t :=
  match arg with
  | .CoinWeight => { o with CoinWeight := v }
  | _ => o

/-- One line as the external tokenizer `parse_line_from_file` reports it: a
well-formed `key value` pair (return value 1) or a malformed line (return
value -1). Blank lines and comments are skipped inside the tokenizer. -/
inductive ParsedLine where
  | pair (key value : String)
  | malformed
  deriving DecidableEq

/-- An open stream, as the successive results of `parse_line_from_file` on it;
the end of the list is the end of input (return value 0). -/
abbrev FILE := List ParsedLine

/-- What `config.c` takes from the C library, the file system and `or.h`. -/
structure Env where
  atoi : String → Int
  atof : String → Double
  fopen : String → Option FILE
  MAXCONNECTIONS : Int
  CONFDIR : String
  CONFIG_LEGAL_FILENAME_CHARACTERS : String

/-- An argument of a log call. -/
inductive LogArg where
  | s (v : String)
  | d (v : Int)
  deriving DecidableEq

/-- An observable call made by `config.c`. -/
inductive Event where
  | log (severity : Severity) (format : String) (args : List LogArg)
  | fopen (filename : String)
  | fclose
  deriving DecidableEq

/-- The call `log(severity, format, args...)`. -/
def log (severity : Severity) (format : String) (args : List LogArg) : Event :=
  .log severity format args

/-- The call `log_fn(severity, format, args...)`: `log` with the name of the
calling function put in front of the text by the macro. -/
def log_fn (severity : Severity) (format : String) (args : List LogArg) : Event :=
  .log severity format args

/-- An environment for worked examples: the library functions above, the
constants of `or.h` (`MAXCONNECTIONS` is 1000 there), and a file system in
which every legal name opens the given stream. -/
def example_env (file : FILE) : Env :=
  { atoi := atoi
    atof := atof
    fopen := fun _ => some file
    MAXCONNECTIONS := 1000
    CONFDIR := "/usr/local/etc/tor"
    CONFIG_LEGAL_FILENAME_CHARACTERS :=
      "abcdefghijklmnopqrstuvwxyzABCDEFGHIJKLMNOPQRSTUVWXYZ0123456789.-_/" }

/-! ## The functions of `config.c` -/

/-- The function `config_open` (open configuration file for reading): `NULL`
without a call to `fopen` when the name has a character outside
`CONFIG_LEGAL_FILENAME_CHARACTERS`. -/
def config_open (E : Env) (filename : String) : Option FILE × List Event :=
  if strspn filename E.CONFIG_LEGAL_FILENAME_CHARACTERS ≠ strlen filename then
    (none, [])
  else
    (E.fopen filename, [Event.fopen filename])

/-- The function `config_close`. -/
def config_close (_f : FILE) : List Event := [Event.fclose]

/-- The key of a command-line entry: `s = argv[i]; while(*s == '-') s++;`. -/
def skip_dashes : List Char → List Char
  | [] => []
  | c :: cs => if c = '-' then skip_dashes cs else c :: cs

/-- The loop of `config_get_commandlines`, on the arguments from `argv[i]` on:
`i < argc-1` holds exactly when two arguments remain, and `i += 2` drops both. -/
def config_get_commandlines_loop :
    List String → List config_line → List config_line × List Event
  | a :: b :: rest, front =>
    if strcmp a "-f" = 0 then
      config_get_commandlines_loop rest front
    else
      let new : config_line := { key := tor_strdup ⟨skip_dashes a.data⟩, value := tor_strdup b }
      let ev := log LOG_DEBUG "Commandline: parsed keyword '%s', value '%s'"
        [.s new.key, .s new.value]
      let r := config_get_commandlines_loop rest (new :: front)
      (r.1, ev :: r.2)
  | _, front => (front, [])

/-- The function `config_get_commandlines`; `argc` is the length of `argv` and
the scan starts at `argv[1]`. -/
def config_get_commandlines (argv : List String) : List config_line × List Event :=
  config_get_commandlines_loop argv.tail []

/-- The loop of `config_get_lines`: every parsed pair is put in front of the
list; `NULL` on a malformed line. -/
def config_get_lines_loop : FILE → List config_line → List config_line
  | [], front => front
  | .pair key value :: rest, front =>
    config_get_lines_loop rest ({ key := tor_strdup key, value := tor_strdup value } :: front)
  | .malformed :: _, _ => []

/-- The function `config_get_lines`. -/
def config_get_lines (f : FILE) : List config_line :=
  config_get_lines_loop f []

/-- The function `config_compare`: the C return value, the record after the
call, and the calls to the log sink. -/
def config_compare (E : Env) (c : config_line) (key : String) (type : ConfigType) (arg : Ptr)
    (options : or_options_t) : Int × or_options_t × List Event :=
  if strncasecmp c.key key (strlen c.key) ≠ 0 then
    (0, options, [])
  else
    let ev := log_fn LOG_DEBUG "Recognized keyword '%s' as %s, using value '%s'."
      [.s c.key, .s key, .s c.value]
    match type with
    | CONFIG_TYPE_INT => (1, store_int arg (E.atoi c.value) options, [ev])
    | CONFIG_TYPE_BOOL =>
      let i := E.atoi c.value
      if i ≠ 0 ∧ i ≠ 1 then
        (0, options, [ev, log LOG_WARN "Boolean keyword '%s' expects 0 or 1" [.s c.key]])
      else
        (1, store_int arg i options, [ev])
    | CONFIG_TYPE_STRING => (1, store_string arg (tor_strdup c.value) options, [ev])
    | CONFIG_TYPE_DOUBLE => (1, store_double arg (E.atof c.value) options, [ev])
    | _ => (1, options, [ev])

/-- The table behind the chain of `config_compare` calls in `config_assign`,
in the order of the source. -/
def option_table : List (String × ConfigType × Ptr) :=
  [ ("LogLevel", CONFIG_TYPE_STRING, .LogLevel),
    ("LogFile", CONFIG_TYPE_STRING, .LogFile),
    ("DebugLogFile", CONFIG_TYPE_STRING, .DebugLogFile),
    ("DataDirectory", CONFIG_TYPE_STRING, .DataDirectory),
    ("RouterFile", CONFIG_TYPE_STRING, .RouterFile),
    ("PidFile", CONFIG_TYPE_STRING, .PidFile),
    ("Nickname", CONFIG_TYPE_STRING, .Nickname),
    ("Address", CONFIG_TYPE_STRING, .Address),
    ("ExitPolicy", CONFIG_TYPE_STRING, .ExitPolicy),
    ("MaxConn", CONFIG_TYPE_INT, .MaxConn),
    ("APPort", CONFIG_TYPE_INT, .APPort),
    ("ORPort", CONFIG_TYPE_INT, .ORPort),
    ("DirPort", CONFIG_TYPE_INT, .DirPort),
    ("DirFetchPostPeriod", CONFIG_TYPE_INT, .DirFetchPostPeriod),
    ("KeepalivePeriod", CONFIG_TYPE_INT, .KeepalivePeriod),
    ("MaxOnionsPending", CONFIG_TYPE_INT, .MaxOnionsPending),
    ("NewCircuitPeriod", CONFIG_TYPE_INT, .NewCircuitPeriod),
    ("TotalBandwidth", CONFIG_TYPE_INT, .TotalBandwidth),
    ("NumCpus", CONFIG_TYPE_INT, .NumCpus),
    ("OnionRouter", CONFIG_TYPE_BOOL, .OnionRouter),
    ("TrafficShaping", CONFIG_TYPE_BOOL, .TrafficShaping),
    ("LinkPadding", CONFIG_TYPE_BOOL, .LinkPadding),
    ("IgnoreVersion", CONFIG_TYPE_BOOL, .IgnoreVersion),
    ("RunAsDaemon", CONFIG_TYPE_BOOL, .RunAsDaemon),
    ("CoinWeight", CONFIG_TYPE_DOUBLE, .CoinWeight) ]

/-- The chain `config_compare(..) || config_compare(..) || ...` over a table:
the calls are made in order until one returns non-zero. -/
def config_compare_chain (E : Env) (c : config_line) :
    List (String × ConfigType × Ptr) → or_options_t → Bool × or_options_t × List Event
  | [], options => (false, options, [])
  | (key, type, arg) :: rest, options =>
    let r := config_compare E c key type arg options
    if r.1 ≠ 0 then (true, r.2.1, r.2.2)
    else
      let r2 := config_compare_chain E c rest r.2.1
      (r2.1, r2.2.1, r.2.2 ++ r2.2.2)

/-- The function `config_assign`: iterate through the list, for each item
convert as appropriate and assign to the record. -/
def config_assign (E : Env) : or_options_t → List config_line → or_options_t × List Event
  | options, [] => (options, [])
  | options, c :: rest =>
    let r := config_compare_chain E c option_table options
    let warn :=
      if r.1 then [] else [log_fn LOG_WARN "Ignoring unknown keyword '%s'." [.s c.key]]
    let r2 := config_assign E r.2.1 rest
    (r2.1, r.2.2 ++ warn ++ r2.2)

/-- The record after `memset(options,0,sizeof(or_options_t))` and the
assignments that give reasonable values for each option. -/
def default_options : or_options_t :=
  { LogLevel := some "info"
    LogFile := none
    DebugLogFile := none
    DataDirectory := none
    RouterFile := none
    PidFile := some "tor.pid"
    Nickname := none
    Address := none
    ExitPolicy := some "reject 127.0.0.1:*,reject 18.244.0.188:25,accept *:*"
    MaxConn := 900
    APPort := 0
    ORPort := 0
    DirPort := 0
    DirFetchPostPeriod := 600
    KeepalivePeriod := 300
    MaxOnionsPending := 10
    NewCircuitPeriod := 60
    TotalBandwidth := 800000
    NumCpus := 1
    OnionRouter := 0
    TrafficShaping := 0
    LinkPadding := 0
    IgnoreVersion := 0
    RunAsDaemon := 0
    CoinWeight := Double.tenth
    loglevel := LOG_INFO }

/-- The search for the config file name in `getconfig`, on the arguments from
`argv[i]` on: `while(i < argc-1 && strcmp(argv[i],"-f")) i++;` and then
`argv[i+1]` if `i < argc-1`. -/
def find_config_fname : List String → Option String
  | [] => none
  | a :: rest =>
    match rest with
    | [] => none
    | b :: _ => if strcmp a "-f" ≠ 0 then find_config_fname rest else some b

/-- The state of the validation part of `getconfig`: `result`, the record, and
the log calls made so far. -/
structure ValidateState where
  result : Int
  options : or_options_t
  events : List Event

/-- A failed check: `log(LOG_WARN, ...); result = -1;`. -/
def ValidateState.violation (s : ValidateState) (format : String) (args : List LogArg) :
    ValidateState :=
  { s with result := -1, events := s.events ++ [log LOG_WARN format args] }

/-- A failed check reported through the macro: `log_fn(LOG_WARN, ...); result = -1;`. -/
def ValidateState.violation_fn (s : ValidateState) (format : String) (args : List LogArg) :
    ValidateState :=
  { s with result := -1, events := s.events ++ [log_fn LOG_WARN format args] }

/-- Set the derived field: `options->loglevel = l;`. -/
def ValidateState.set_loglevel (s : ValidateState) (l : Severity) : ValidateState :=
  { s with options := { s.options with loglevel := l } }

/-- The check `if(options->LogLevel) { ... }`. -/
def check_LogLevel (s : ValidateState) : ValidateState :=
  match s.options.LogLevel with
  | some l =>
    if strcmp l "err" = 0 then s.set_loglevel LOG_ERR
    else if strcmp l "warn" = 0 then s.set_loglevel LOG_WARN
    else if strcmp l "info" = 0 then s.set_loglevel LOG_INFO
    else if strcmp l "debug" = 0 then s.set_loglevel LOG_DEBUG
    else s.violation "LogLevel must be one of err|warn|info|debug." []
  | none => s

/-- The check `if(options->RouterFile == NULL)`. -/
def check_RouterFile (s : ValidateState) : ValidateState :=
  if s.options.RouterFile = none then
    s.violation "RouterFile option required, but not found." []
  else s

/-- The check `if(options->ORPort < 0)`. -/
def check_ORPort (s : ValidateState) : ValidateState :=
  if s.options.ORPort < 0 then s.violation "ORPort option can't be negative." [] else s

/-- The check `if(options->OnionRouter && options->ORPort == 0)`. -/
def check_OnionRouter_ORPort (s : ValidateState) : ValidateState :=
  if s.options.OnionRouter ≠ 0 ∧ s.options.ORPort = 0 then
    s.violation "If OnionRouter is set, then ORPort must be positive." []
  else s

/-- The check `if(options->OnionRouter && options->DataDirectory == NULL)`. -/
def check_OnionRouter_DataDirectory (s : ValidateState) : ValidateState :=
  if s.options.OnionRouter ≠ 0 ∧ s.options.DataDirectory = none then
    s.violation "DataDirectory option required for OnionRouter, but not found." []
  else s

/-- The check `if(options->OnionRouter && options->Nickname == NULL)`. -/
def check_OnionRouter_Nickname (s : ValidateState) : ValidateState :=
  if s.options.OnionRouter ≠ 0 ∧ s.options.Nickname = none then
    s.violation_fn "Nickname required for OnionRouter, but not found." []
  else s

/-- The check `if(options->APPort < 0)`. -/
def check_APPort (s : ValidateState) : ValidateState :=
  if s.options.APPort < 0 then s.violation "APPort option can't be negative." [] else s

/-- The check `if(options->DirPort < 0)`. -/
def check_DirPort (s : ValidateState) : ValidateState :=
  if s.options.DirPort < 0 then s.violation "DirPort option can't be negative." [] else s

/-- The check `if(options->APPort > 1 &&
(options->CoinWeight < 0.0 || options->CoinWeight >= 1.0))`. -/
def check_CoinWeight (s : ValidateState) : ValidateState :=
  if s.options.APPort > 1 ∧
      (Double.lt s.options.CoinWeight Double.zero = true ∨
        Double.ge s.options.CoinWeight Double.one = true) then
    s.violation "CoinWeight option must be >=0.0 and <1.0." []
  else s

/-- The check `if(options->MaxConn < 1)`. -/
def check_MaxConn_low (s : ValidateState) : ValidateState :=
  if s.options.MaxConn < 1 then
    s.violation "MaxConn option must be a non-zero positive integer." []
  else s

/-- The check `if(options->MaxConn >= MAXCONNECTIONS)`. -/
def check_MaxConn_high (E : Env) (s : ValidateState) : ValidateState :=
  if s.options.MaxConn ≥ E.MAXCONNECTIONS then
    s.violation "MaxConn option must be less than %d." [.d E.MAXCONNECTIONS]
  else s

/-- The check `if(options->DirFetchPostPeriod < 1)`. -/
def check_DirFetchPostPeriod (s : ValidateState) : ValidateState :=
  if s.options.DirFetchPostPeriod < 1 then
    s.violation "DirFetchPostPeriod option must be positive." []
  else s

/-- The check `if(options->KeepalivePeriod < 1)`. -/
def check_KeepalivePeriod (s : ValidateState) : ValidateState :=
  if s.options.KeepalivePeriod < 1 then
    s.violation "KeepalivePeriod option must be positive." []
  else s

/-- The validation part of `getconfig` (from the comment `Validate options`
to `return result`): the thirteen `if` statements in the order of the source,
started with `result = 0`. -/
def validate (E : Env) (options : or_options_t) : ValidateState :=
  check_KeepalivePeriod <| check_DirFetchPostPeriod <| check_MaxConn_high E <|
  check_MaxConn_low <| check_CoinWeight <| check_DirPort <| check_APPort <|
  check_OnionRouter_Nickname <| check_OnionRouter_DataDirectory <|
  check_OnionRouter_ORPort <| check_ORPort <| check_RouterFile <| check_LogLevel
    { result := 0, options := options, events := [] }

/-- What a call of `getconfig` leaves behind: the return value, the record
written through `options`, and the calls made in program order. -/
structure Outcome where
  ret : Int
  options : or_options_t
  events : List Event

/-- The config file name `getconfig` settles on: the argument after the first
`-f`, else `CONFDIR "/torrc"`. -/
def config_fname (E : Env) (argv : List String) : String :=
  match find_config_fname argv.tail with
  | some f => f
  | none => E.CONFDIR ++ "/torrc"

/-- The function `getconfig`: return 0 if success, <0 if failure. -/
def getconfig (E : Env) (argv : List String) : Outcome :=
  let options := default_options
  let fname := config_fname E argv
  let ev0 := [log LOG_DEBUG "Opening config file '%s'" [.s fname]]
  match config_open E fname with
  | (none, evo) =>
    { ret := -1, options := options,
      events := ev0 ++ evo ++ [log LOG_WARN "Unable to open configuration file '%s'." [.s fname]] }
  | (some cf, evo) =>
    let cl := config_get_lines cf
    if cl = [] then { ret := -1, options := options, events := ev0 ++ evo }
    else
      let a1 := config_assign E options cl
      let evc := config_close cf
      let cl2 := config_get_commandlines argv
      let a2 := config_assign E a1.1 cl2.1
      let v := validate E a2.1
      { ret := v.result, options := v.options,
        events := ev0 ++ evo ++ a1.2 ++ evc ++ cl2.2 ++ a2.2 ++ v.events }

/-! ## Vocabulary of the specification -/

/-- The test at the head of `config_compare`: the entry key matches the
canonical name. -/
def key_matches (k name : String) : Bool := decide (strncasecmp k name (strlen k) = 0)

/-- A key is an initial segment of a canonical name, ignoring ASCII case: it
is no longer than the name and equals the name's first `length(k)` characters
after `tolower`. -/
def is_initial_segment_ignoring_case (k name : String) : Prop :=
  k.data.length ≤ name.data.length ∧
    k.data.map tolower = (name.data.take k.data.length).map tolower

instance (k name : String) : Decidable (is_initial_segment_ignoring_case k name) := by
  unfold is_initial_segment_ignoring_case
  infer_instance

/-- The option a key resolves to: the first entry of the option table, in
table order, whose canonical name the key matches. -/
def resolve (k : String) : Option (String × ConfigType × Ptr) :=
  option_table.find? (fun e => key_matches k e.1)

/-- The content of an option field. -/
inductive Val where
  | str (v : Option String)
  | int (v : Int)
  | dbl (v : Double)
  deriving DecidableEq

/-- Read the option field behind a pointer. -/
def load (o : or_options_t) : Ptr → Val
  | .LogLevel => .str o.LogLevel
  | .LogFile => .str o.LogFile
  | .DebugLogFile => .str o.DebugLogFile
  | .DataDirectory => .str o.DataDirectory
  | .RouterFile => .str o.RouterFile
  | .PidFile => .str o.PidFile
  | .Nickname => .str o.Nickname
  | .Address => .str o.Address
  | .ExitPolicy => .str o.ExitPolicy
  | .MaxConn => .int o.MaxConn
  | .APPort => .int o.APPort
  | .ORPort => .int o.ORPort
  | .DirPort => .int o.DirPort
  | .DirFetchPostPeriod => .int o.DirFetchPostPeriod
  | .KeepalivePeriod => .int o.KeepalivePeriod
  | .MaxOnionsPending => .int o.MaxOnionsPending
  | .NewCircuitPeriod => .int o.NewCircuitPeriod
  | .TotalBandwidth => .int o.TotalBandwidth
  | .NumCpus => .int o.NumCpus
  | .OnionRouter => .int o.OnionRouter
  | .TrafficShaping => .int o.TrafficShaping
  | .LinkPadding => .int o.LinkPadding
  | .IgnoreVersion => .int o.IgnoreVersion
  | .RunAsDaemon => .int o.RunAsDaemon
  | .CoinWeight => .dbl o.CoinWeight

/-- The coercion of an entry value per option type, as the specification words
it: a String is copied, an Int and a Double are parsed, a Bool is parsed and
accepted only when it is 0 or 1 (`none`: the value is not acceptable and
nothing is assigned). -/
def coerce (E : Env) : ConfigType → String → Option Val
  | CONFIG_TYPE_STRING, v => some (.str (some v))
  | CONFIG_TYPE_INT, v => some (.int (E.atoi v))
  | CONFIG_TYPE_BOOL, v =>
    if E.atoi v = 0 ∨ E.atoi v = 1 then some (.int (E.atoi v)) else none
  | CONFIG_TYPE_DOUBLE, v => some (.dbl (E.atof v))
  | _, _ => none

/-- Write a value into the option field behind a pointer. -/
def store_val (arg : Ptr) : Val → or_options_t → or_options_t
  | .str (some v), o => store_string arg v o
  | .str none, o => o
  | .int v, o => store_int arg v o
  | .dbl v, o => store_double arg v o

/-- The value an entry gives to option `p`: its coerced value when its key
resolves to `p` and the value is acceptable for the type of `p`, else `none`. -/
def entry_value (E : Env) (p : Ptr) (c : config_line) : Option Val :=
  match resolve c.key with
  | some (_, type, arg) => if arg = p then coerce E type c.value else none
  | none => none

/-- What the specification says one entry does to the record: the first
matching option gets the coerced value, nothing else changes. -/
def assign_entry (E : Env) (o : or_options_t) (c : config_line) : or_options_t :=
  match resolve c.key with
  | some (_, type, arg) =>
    match coerce E type c.value with
    | some v => store_val arg v o
    | none => o
  | none => o

/-- The first character of a canonical name, after `tolower`. -/
def lower_head (n : String) : Option Nat := n.data.head?.map tolower

/-- A property of a table: no entry after a Bool entry starts with the same
letter as that Bool entry. -/
def bool_entries_isolated : List (String × ConfigType × Ptr) → Bool
  | [] => true
  | (name, type, _) :: rest =>
    (type ≠ CONFIG_TYPE_BOOL ||
      ((lower_head name).isSome &&
        rest.all (fun e => (lower_head e.1).isSome && lower_head e.1 ≠ lower_head name))) &&
    bool_entries_isolated rest

/-- The entry of a well-formed line. -/
def ParsedLine.entry? : ParsedLine → Option config_line
  | .pair key value => some { key := key, value := value }
  | .malformed => none

/-- The entries of a file, in file order. -/
def file_entries (f : FILE) : List config_line := f.filterMap ParsedLine.entry?

/-- The record after both sources are merged into the defaults: the file
pass, then the command-line pass. -/
def merged_options (E : Env) (cf : FILE) (argv : List String) : or_options_t :=
  (config_assign E (config_assign E default_options (config_get_lines cf)).1
    (config_get_commandlines argv).1).1

/-- The validation rules as the specification lists them. -/
def satisfies_rules (E : Env) (o : or_options_t) : Prop :=
  (o.LogLevel = some "err" ∨ o.LogLevel = some "warn" ∨ o.LogLevel = some "info" ∨
      o.LogLevel = some "debug") ∧
    o.RouterFile ≠ none ∧
    0 ≤ o.ORPort ∧
    (o.OnionRouter ≠ 0 → 0 < o.ORPort) ∧
    (o.OnionRouter ≠ 0 → o.DataDirectory ≠ none) ∧
    (o.OnionRouter ≠ 0 → o.Nickname ≠ none) ∧
    0 ≤ o.APPort ∧
    0 ≤ o.DirPort ∧
    (1 < o.APPort →
      Double.le Double.zero o.CoinWeight = true ∧ Double.lt o.CoinWeight Double.one = true) ∧
    (1 ≤ o.MaxConn ∧ o.MaxConn < E.MAXCONNECTIONS) ∧
    1 ≤ o.DirFetchPostPeriod ∧
    1 ≤ o.KeepalivePeriod

instance (E : Env) (o : or_options_t) : Decidable (satisfies_rules E o) := by
  unfold satisfies_rules
  infer_instance

/-- The thirteen checks of the validation part of `getconfig`, in source
order: whether the record violates the check, and the message logged for it. -/
def checks (E : Env) (o : or_options_t) : List (Bool × Event) :=
  [ (decide (∃ l, o.LogLevel = some l ∧ l ≠ "err" ∧ l ≠ "warn" ∧ l ≠ "info" ∧ l ≠ "debug"),
      log LOG_WARN "LogLevel must be one of err|warn|info|debug." []),
    (decide (o.RouterFile = none), log LOG_WARN "RouterFile option required, but not found." []),
    (decide (o.ORPort < 0), log LOG_WARN "ORPort option can't be negative." []),
    (decide (o.OnionRouter ≠ 0 ∧ o.ORPort = 0),
      log LOG_WARN "If OnionRouter is set, then ORPort must be positive." []),
    (decide (o.OnionRouter ≠ 0 ∧ o.DataDirectory = none),
      log LOG_WARN "DataDirectory option required for OnionRouter, but not found." []),
    (decide (o.OnionRouter ≠ 0 ∧ o.Nickname = none),
      log_fn LOG_WARN "Nickname required for OnionRouter, but not found." []),
    (decide (o.APPort < 0), log LOG_WARN "APPort option can't be negative." []),
    (decide (o.DirPort < 0), log LOG_WARN "DirPort option can't be negative." []),
    (decide (o.APPort > 1 ∧
        (Double.lt o.CoinWeight Double.zero = true ∨ Double.ge o.CoinWeight Double.one = true)),
      log LOG_WARN "CoinWeight option must be >=0.0 and <1.0." []),
    (decide (o.MaxConn < 1),
      log LOG_WARN "MaxConn option must be a non-zero positive integer." []),
    (decide (o.MaxConn ≥ E.MAXCONNECTIONS),
      log LOG_WARN "MaxConn option must be less than %d." [.d E.MAXCONNECTIONS]),
    (decide (o.DirFetchPostPeriod < 1),
      log LOG_WARN "DirFetchPostPeriod option must be positive." []),
    (decide (o.KeepalivePeriod < 1), log LOG_WARN "KeepalivePeriod option must be positive." []) ]

/-- The messages of the violated checks, in source order. -/
def violations (E : Env) (o : or_options_t) : List Event :=
  ((checks E o).filter (fun c => c.1)).map (fun c => c.2)

/-- An event is a warning sent to the log sink. -/
def Event.is_warning : Event → Bool
  | .log LOG_WARN _ _ => true
  | _ => false

/-- One check of the validation part, given whether it is violated. -/
def run_check (s : ValidateState) (c : Bool × Event) : ValidateState :=
  if c.1 then { s with result := -1, events := s.events ++ [c.2] } else s

/-- The severity the validation part derives from the LogLevel string; the
derived field is left as it is when the string is not recognised. -/
def derived_loglevel (o : or_options_t) : Severity :=
  match o.LogLevel with
  | some l =>
    if l = "err" then LOG_ERR
    else if l = "warn" then LOG_WARN
    else if l = "info" then LOG_INFO
    else if l = "debug" then LOG_DEBUG
    else o.loglevel
  | none => o.loglevel

/-! ## Inputs of the worked examples -/

/-- The config file `RouterFile r`, `APPort 2`, `CoinWeight nan`. -/
def file_coinweight_nan : FILE :=
  [.pair "RouterFile" "r", .pair "APPort" "2", .pair "CoinWeight" "nan"]

/-- The config file `ORPort 100`, `ORPort 200`. -/
def file_orport_twice : FILE := [.pair "ORPort" "100", .pair "ORPort" "200"]

/-- The config file `OnionRouter 2`, `OnionRouter 1`. -/
def file_onionrouter_twice : FILE := [.pair "OnionRouter" "2", .pair "OnionRouter" "1"]

/-- The defaults with RouterFile set and OnionRouter = 1. -/
def record_onionrouter_only : or_options_t :=
  { default_options with RouterFile := some "r", OnionRouter := 1 }

/-- The config file `RouterFile r`, `OnionRouter 1`. -/
def file_onionrouter_only : FILE := [.pair "RouterFile" "r", .pair "OnionRouter" "1"]

/-- The config file `RouterFile r`, `MaxConn 0`. -/
def file_maxconn_zero : FILE := [.pair "RouterFile" "r", .pair "MaxConn" "0"]

/-! ## Argument scanning with explicit indices -/

/-- The read `argv[i]`. Outside the argument list C leaves the read undefined;
the model gives the empty string there. -/
def argv_at (argv : List String) (i : Nat) : String := argv.getD i ""

/-- What an argument scan leaves behind: its value, the indices of `argv` it
read, in order, and the number of times the loop body ran. -/
structure Scan (α : Type) where
  value : α
  reads : List Nat
  iterations : Nat
  deriving DecidableEq

/-- The loop of `config_get_commandlines` as written, with the index `i`
(an `int` that starts at 1 and only grows) and `argc` the length of `argv`:
`while(i < argc-1)`, the test of `argv[i]` against `-f`, the reads of `argv[i]`
and `argv[i+1]`, `i += 2`. The first argument bounds the number of iterations;
`none` when it runs out. -/
def config_get_commandlines_indexed (argv : List String) :
    Nat → Nat → List config_line → Option (Scan (List config_line))
  | 0, _, _ => none
  | fuel + 1, i, front =>
    if (i : Int) < (argv.length : Int) - 1 then
      if strcmp (argv_at argv i) "-f" = 0 then
        (config_get_commandlines_indexed argv fuel (i + 2) front).map
          (fun r => { r with reads := i :: r.reads, iterations := r.iterations + 1 })
      else
        let new : config_line :=
          { key := tor_strdup ⟨skip_dashes (argv_at argv i).data⟩,
            value := tor_strdup (argv_at argv (i + 1)) }
        (config_get_commandlines_indexed argv fuel (i + 2) (new :: front)).map
          (fun r => { r with reads := i :: i :: (i + 1) :: r.reads,
                             iterations := r.iterations + 1 })
    else some { value := front, reads := [], iterations := 0 }

/-- The search for `-f` in `getconfig` as written: the loop
`while(i < argc-1 && strcmp(argv[i],"-f")) i++;` from index `i`, giving the
final index. The first argument bounds the number of iterations. -/
def find_f_indexed (argv : List String) : Nat → Nat → Option (Scan Nat)
  | 0, _ => none
  | fuel + 1, i =>
    if (i : Int) < (argv.length : Int) - 1 then
      if strcmp (argv_at argv i) "-f" ≠ 0 then
        (find_f_indexed argv fuel (i + 1)).map
          (fun r => { r with reads := i :: r.reads, iterations := r.iterations + 1 })
      else some { value := i, reads := [i], iterations := 0 }
    else some { value := i, reads := [], iterations := 0 }

/-- The search for the config file name in `getconfig` as written: the loop
from `i = 1`, then `fname = argv[i+1]` when `i < argc-1` (`some`), else the
default name (`none`). -/
def find_config_fname_indexed (argv : List String) (fuel : Nat) : Option (Scan (Option String)) :=
  (find_f_indexed argv fuel 1).map (fun r =>
    if (r.value : Int) < (argv.length : Int) - 1 then
      { value := some (argv_at argv (r.value + 1)), reads := r.reads ++ [r.value + 1],
        iterations := r.iterations }
    else { value := none, reads := r.reads, iterations := r.iterations })

/-! ## More vocabulary of the specification -/

/-- The arguments taken two at a time, in order; a last argument without a
partner is left out. -/
def adjacent_pairs : List String → List (String × String)
  | a :: b :: rest => (a, b) :: adjacent_pairs rest
  | _ => []

/-- A flag with all its leading `-` characters removed. -/
def strip_leading_dashes (flag : String) : String :=
  ⟨flag.data.dropWhile (fun ch => ch = '-')⟩

/-- The command-line entries as the specification words them, in argument
order: the adjacent pairs of `argv[1..]`, without the pairs whose first
element is exactly `-f`, each as (flag without leading dashes, value). -/
def commandline_entries (argv : List String) : List config_line :=
  ((adjacent_pairs argv.tail).filter (fun p => p.1 ≠ "-f")).map
    (fun p => { key := strip_leading_dashes p.1, value := p.2 })

/-- A path is made of allowed characters only. -/
def legal_filename (E : Env) (filename : String) : Prop :=
  ∀ ch ∈ filename.data, ch ∈ E.CONFIG_LEGAL_FILENAME_CHARACTERS.data

instance (E : Env) (filename : String) : Decidable (legal_filename E filename) := by
  unfold legal_filename
  infer_instance

/-- The state of the config file handle after a run of events, from a given
state: a call of `fopen` that gives a stream opens it, `fclose` closes it. -/
def handle_open_after (E : Env) : Bool → List Event → Bool
  | st, [] => st
  | _, Event.fopen name :: rest => handle_open_after E (E.fopen name).isSome rest
  | _, Event.fclose :: rest => handle_open_after E false rest
  | st, Event.log _ _ _ :: rest => handle_open_after E st rest

/-! ## Lemmas -/

theorem strcmp_chars_eq_zero_iff (a b : List Char) : strcmp_chars a b = 0 ↔ a = b := by
  induction a generalizing b with
  | nil => cases b <;> simp [strcmp_chars]
  | cons x xs ih =>
    cases b with
    | nil => simp [strcmp_chars]
    | cons y ys =>
      simp only [strcmp_chars]
      by_cases h : x = y
      · simp [h, ih]
      · simp only [h, if_false, List.cons.injEq, false_and, iff_false]
        split <;> simp

theorem strcmp_eq_zero_iff (a b : String) : strcmp a b = 0 ↔ a = b := by
  unfold strcmp
  rw [strcmp_chars_eq_zero_iff]
  constructor
  · intro h; exact String.ext h
  · intro h; rw [h]

theorem key_matches_of_empty (k name : String) (h : k.data = []) : key_matches k name = true := by
  simp [key_matches, strncasecmp, strlen, h, strncasecmp_chars]

theorem lower_head_of_key_matches (k name : String) (a : Char) (as : List Char)
    (hk : k.data = a :: as) (hn : (lower_head name).isSome = true)
    (h : key_matches k name = true) : lower_head name = some (tolower a) := by
  simp only [key_matches, strncasecmp, strlen, hk, List.length_cons, decide_eq_true_eq] at h
  unfold lower_head at hn ⊢
  cases hd : name.data with
  | nil => simp [hd] at hn
  | cons b bs =>
    rw [hd] at h
    simp only [strncasecmp_chars] at h
    by_cases hab : tolower a = tolower b
    · simp [hab]
    · rw [if_neg hab] at h
      exfalso; apply hab; omega

theorem config_compare_of_not_matches (E : Env) (c : config_line) (key : String)
    (type : ConfigType) (arg : Ptr) (o : or_options_t) (h : key_matches c.key key = false) :
    config_compare E c key type arg o = (0, o, []) := by
  simp only [key_matches, decide_eq_false_iff_not] at h
  simp [config_compare, h]

theorem chain_of_no_match (E : Env) (c : config_line) :
    ∀ (tbl : List (String × ConfigType × Ptr)) (o : or_options_t),
      (∀ e ∈ tbl, key_matches c.key e.1 = false) →
      config_compare_chain E c tbl o = (false, o, []) := by
  intro tbl
  induction tbl with
  | nil => intro o _; rfl
  | cons e rest ih =>
    intro o h
    obtain ⟨key, type, arg⟩ := e
    have h1 : key_matches c.key key = false := h (key, type, arg) (List.mem_cons_self _ _)
    have h2 := ih o (fun e he => h e (List.mem_cons_of_mem _ he))
    simp [config_compare_chain, config_compare_of_not_matches E c key type arg o h1, h2]

/-- The record `config_compare` leaves when the key matches. -/
theorem config_compare_of_matches (E : Env) (c : config_line) (key : String)
    (type : ConfigType) (arg : Ptr) (o : or_options_t) (h : key_matches c.key key = true) :
    (config_compare E c key type arg o).2.1 =
        (match coerce E type c.value with
          | some v => store_val arg v o
          | none => o) ∧
      ((config_compare E c key type arg o).1 ≠ 0 ↔
        ¬ (type = CONFIG_TYPE_BOOL ∧ E.atoi c.value ≠ 0 ∧ E.atoi c.value ≠ 1)) := by
  simp only [key_matches, decide_eq_true_eq] at h
  cases type <;> simp [config_compare, h, coerce, store_val, tor_strdup]
  · by_cases h0 : E.atoi c.value = 0
    · simp [h0]
    · by_cases h1 : E.atoi c.value = 1
      · simp [h1]
      · simp [h0, h1]

theorem chain_options (E : Env) (c : config_line) (a : Char) (as : List Char)
    (hk : c.key.data = a :: as) :
    ∀ (tbl : List (String × ConfigType × Ptr)) (o : or_options_t),
      bool_entries_isolated tbl = true →
      (config_compare_chain E c tbl o).2.1 =
        (match tbl.find? (fun e => key_matches c.key e.1) with
          | some (_, type, arg) =>
            (match coerce E type c.value with
              | some v => store_val arg v o
              | none => o)
          | none => o) := by
  intro tbl
  induction tbl with
  | nil => intro o _; rfl
  | cons e rest ih =>
    intro o hiso
    obtain ⟨key, type, arg⟩ := e
    simp only [bool_entries_isolated, Bool.and_eq_true] at hiso
    obtain ⟨hhead, hrest⟩ := hiso
    cases hm : key_matches c.key key with
    | false =>
      simp only [config_compare_chain, config_compare_of_not_matches E c key type arg o hm,
        List.find?, hm]
      simpa using ih o hrest
    | true =>
      obtain ⟨hrec, hret⟩ := config_compare_of_matches E c key type arg o hm
      simp only [List.find?, hm]
      by_cases hbad : type = CONFIG_TYPE_BOOL ∧ E.atoi c.value ≠ 0 ∧ E.atoi c.value ≠ 1
      · have hzero : (config_compare E c key type arg o).1 = 0 := by
          by_contra hne
          exact (hret.mp hne) hbad
        obtain ⟨hty, h0, h1⟩ := hbad
        subst hty
        have hsame : (config_compare E c key CONFIG_TYPE_BOOL arg o).2.1 = o := by
          rw [hrec]; simp [coerce, h0, h1]
        simp only [ne_eq, not_true_eq_false, decide_False, Bool.false_or, Bool.and_eq_true,
          List.all_eq_true, decide_eq_true_eq] at hhead
        obtain ⟨hsome, hall⟩ := hhead
        have hkey := lower_head_of_key_matches c.key key a as hk hsome hm
        have hnone : ∀ e ∈ rest, key_matches c.key e.1 = false := by
          intro e he
          have := hall e he
          simp only [Bool.and_eq_true, decide_eq_true_eq] at this
          by_contra hne
          have hme : key_matches c.key e.1 = true := by simpa using hne
          have he2 := lower_head_of_key_matches c.key e.1 a as hk this.1 hme
          exact this.2 (he2.trans hkey.symm)
        simp only [config_compare_chain, hzero, ne_eq, not_true_eq_false, if_false, hsame,
          chain_of_no_match E c rest o hnone]
        simp [coerce, h0, h1]
      · have hne := hret.mpr hbad
        simp only [config_compare_chain, hne, ne_eq, not_false_eq_true, if_true]
        exact hrec

theorem chain_options_table (E : Env) (c : config_line) (o : or_options_t) :
    (config_compare_chain E c option_table o).2.1 = assign_entry E o c := by
  cases hk : c.key.data with
  | nil =>
    have hm : ∀ n, strncasecmp c.key n (strlen c.key) = 0 := by
      intro n; simp [strncasecmp, strlen, hk, strncasecmp_chars]
    simp [assign_entry, resolve, option_table, config_compare_chain, config_compare, hm,
      key_matches, coerce, store_val, tor_strdup]
  | cons a as =>
    unfold assign_entry resolve
    exact chain_options E c a as hk option_table o (by decide)

theorem config_assign_options (E : Env) :
    ∀ (l : List config_line) (o : or_options_t),
      (config_assign E o l).1 = l.foldl (assign_entry E) o := by
  intro l
  induction l with
  | nil => intro o; rfl
  | cons c rest ih =>
    intro o
    simp only [config_assign, List.foldl_cons]
    rw [ih, chain_options_table]

/-! ### Loads and stores -/

theorem load_store_string_other (p q : Ptr) (v : String) (o : or_options_t) (h : q ≠ p) :
    load (store_string p v o) q = load o q := by
  cases p <;> cases q <;> first | rfl | exact absurd rfl h

theorem load_store_int_other (p q : Ptr) (v : Int) (o : or_options_t) (h : q ≠ p) :
    load (store_int p v o) q = load o q := by
  cases p <;> cases q <;> first | rfl | exact absurd rfl h

theorem load_store_double_other (p q : Ptr) (v : Double) (o : or_options_t) (h : q ≠ p) :
    load (store_double p v o) q = load o q := by
  cases p <;> cases q <;> first | rfl | exact absurd rfl h

theorem load_store_val_other (p q : Ptr) (v : Val) (o : or_options_t) (h : q ≠ p) :
    load (store_val p v o) q = load o q := by
  cases v with
  | str s =>
    cases s with
    | none => rfl
    | some s => exact load_store_string_other p q s o h
  | int i => exact load_store_int_other p q i o h
  | dbl d => exact load_store_double_other p q d o h

theorem loglevel_store_val (p : Ptr) (v : Val) (o : or_options_t) :
    (store_val p v o).loglevel = o.loglevel := by
  cases v with
  | str s =>
    cases s with
    | none => rfl
    | some s => cases p <;> rfl
  | int i => cases p <;> rfl
  | dbl d => cases p <;> rfl

/-- Every table entry stores the value coerced for its type in its own field. -/
theorem load_store_val_self (E : Env) (e : String × ConfigType × Ptr) (he : e ∈ option_table)
    (s : String) (v : Val) (o : or_options_t) (hv : coerce E e.2.1 s = some v) :
    load (store_val e.2.2 v o) e.2.2 = v := by
  simp only [option_table, List.mem_cons, List.mem_singleton, List.not_mem_nil, or_false] at he
  rcases he with h | h | h | h | h | h | h | h | h | h | h | h | h | h | h | h | h | h | h | h |
    h | h | h | h | h <;> subst h <;> simp only [coerce] at hv <;>
    first
    | (cases hv; rfl)
    | (split at hv
       · cases hv; rfl
       · cases hv)

theorem resolve_mem (k : String) (e : String × ConfigType × Ptr) (h : resolve k = some e) :
    e ∈ option_table :=
  List.mem_of_find?_eq_some h

/-- One entry changes option `p` exactly when it has a value for `p`. -/
theorem load_assign_entry (E : Env) (o : or_options_t) (c : config_line) (p : Ptr) :
    load (assign_entry E o c) p = (entry_value E p c).getD (load o p) := by
  unfold assign_entry entry_value
  cases hr : resolve c.key with
  | none => rfl
  | some e =>
    obtain ⟨name, type, arg⟩ := e
    have hmem := resolve_mem c.key _ hr
    simp only
    cases hc : coerce E type c.value with
    | none => by_cases hp : arg = p <;> simp [hp]
    | some v =>
      by_cases hp : arg = p
      · subst hp
        simp only [if_true, Option.getD_some]
        exact load_store_val_self E (name, type, arg) hmem c.value v o hc
      · simp only [hp, if_false, Option.getD_none]
        exact load_store_val_other arg p v o (fun h => hp h.symm)

theorem loglevel_assign_entry (E : Env) (o : or_options_t) (c : config_line) :
    (assign_entry E o c).loglevel = o.loglevel := by
  unfold assign_entry
  cases resolve c.key with
  | none => rfl
  | some e =>
    obtain ⟨name, type, arg⟩ := e
    simp only
    cases coerce E type c.value with
    | none => rfl
    | some v => exact loglevel_store_val arg v o

/-! ### A pass over a list of entries -/

theorem load_foldl_of_no_value (E : Env) (p : Ptr) :
    ∀ (l : List config_line) (o : or_options_t),
      (∀ d ∈ l, entry_value E p d = none) →
      load (l.foldl (assign_entry E) o) p = load o p := by
  intro l
  induction l with
  | nil => intro o _; rfl
  | cons c rest ih =>
    intro o h
    rw [List.foldl_cons, ih _ (fun d hd => h d (List.mem_cons_of_mem _ hd)), load_assign_entry,
      h c (List.mem_cons_self _ _)]
    rfl

theorem loglevel_foldl (E : Env) :
    ∀ (l : List config_line) (o : or_options_t),
      (l.foldl (assign_entry E) o).loglevel = o.loglevel := by
  intro l
  induction l with
  | nil => intro o; rfl
  | cons c rest ih => intro o; rw [List.foldl_cons, ih, loglevel_assign_entry]

/-- In a pass over `later ++ c :: earlier` the entry `c` decides option `p`
when it has a value for `p` and no entry walked after it has one. -/
theorem load_foldl_split (E : Env) (p : Ptr) (later earlier : List config_line)
    (c : config_line) (v : Val) (o : or_options_t)
    (hc : entry_value E p c = some v) (hrest : ∀ d ∈ earlier, entry_value E p d = none) :
    load ((later ++ c :: earlier).foldl (assign_entry E) o) p = v := by
  rw [List.foldl_append, List.foldl_cons, load_foldl_of_no_value E p earlier _ hrest,
    load_assign_entry, hc]
  rfl

/-- The list `config_get_lines` builds from a file without a malformed line:
the entries in reverse of file order. -/
theorem config_get_lines_loop_eq (f : FILE) (hf : ParsedLine.malformed ∉ f) :
    ∀ front, config_get_lines_loop f front = (file_entries f).reverse ++ front := by
  induction f with
  | nil => intro front; rfl
  | cons l rest ih =>
    intro front
    cases l with
    | malformed => exact absurd (List.mem_cons_self _ _) hf
    | pair key value =>
      have hrest : ParsedLine.malformed ∉ rest := fun h => hf (List.mem_cons_of_mem _ h)
      simp [config_get_lines_loop, ih hrest, file_entries, ParsedLine.entry?, tor_strdup]

theorem config_get_lines_eq (f : FILE) (hf : ParsedLine.malformed ∉ f) :
    config_get_lines f = (file_entries f).reverse := by
  simp [config_get_lines, config_get_lines_loop_eq f hf]

/-- A malformed line anywhere makes `config_get_lines` return `NULL`. -/
theorem config_get_lines_loop_malformed (f : FILE) (hf : ParsedLine.malformed ∈ f) :
    ∀ front, config_get_lines_loop f front = [] := by
  induction f with
  | nil => exact absurd hf (List.not_mem_nil _)
  | cons l rest ih =>
    intro front
    cases l with
    | malformed => rfl
    | pair key value =>
      have hrest : ParsedLine.malformed ∈ rest := by
        cases hf with
        | tail _ h => exact h
      simpa [config_get_lines_loop] using ih hrest _

theorem run_check_options (s : ValidateState) (c : Bool × Event) :
    (run_check s c).options = s.options := by
  unfold run_check; split <;> rfl

theorem foldl_run_check (l : List (Bool × Event)) :
    ∀ s : ValidateState,
      (l.foldl run_check s).options = s.options ∧
      (l.foldl run_check s).events = s.events ++ (l.filter (fun c => c.1)).map (fun c => c.2) ∧
      (l.foldl run_check s).result =
        if (l.filter (fun c => c.1)).map (fun c => c.2) = [] then s.result else -1 := by
  induction l with
  | nil => intro s; simp
  | cons c rest ih =>
    intro s
    obtain ⟨h1, h2, h3⟩ := ih (run_check s c)
    rw [List.foldl_cons, h1, h2, h3]
    obtain ⟨b, ev⟩ := c
    cases b
    · have hf : List.filter (fun c : Bool × Event => c.1) ((false, ev) :: rest) =
          List.filter (fun c => c.1) rest := rfl
      rw [hf]
      simp [run_check]
    · have hf : List.filter (fun c : Bool × Event => c.1) ((true, ev) :: rest) =
          (true, ev) :: List.filter (fun c => c.1) rest := rfl
      rw [hf]
      simp [run_check]

theorem check_LogLevel_eq (o : or_options_t) :
    check_LogLevel { result := 0, options := o, events := [] } =
      run_check { result := 0, options := { o with loglevel := derived_loglevel o }, events := [] }
        (decide (∃ l, o.LogLevel = some l ∧ l ≠ "err" ∧ l ≠ "warn" ∧ l ≠ "info" ∧ l ≠ "debug"),
          log LOG_WARN "LogLevel must be one of err|warn|info|debug." []) := by
  unfold check_LogLevel run_check derived_loglevel
  cases o with
  | mk LogLevel =>
    cases LogLevel with
    | none => simp
    | some l =>
      simp only [strcmp_eq_zero_iff, ValidateState.set_loglevel, ValidateState.violation]
      by_cases h1 : l = "err"
      · simp [h1]
      · by_cases h2 : l = "warn"
        · simp [h2]
        · by_cases h3 : l = "info"
          · simp [h3]
          · by_cases h4 : l = "debug"
            · simp [h4]
            · simp [h1, h2, h3, h4]

theorem check_RouterFile_eq (s : ValidateState) :
    check_RouterFile s = run_check s (decide (s.options.RouterFile = none),
      log LOG_WARN "RouterFile option required, but not found." []) := by
  unfold check_RouterFile run_check ValidateState.violation
  by_cases h : s.options.RouterFile = none <;> simp [h]

theorem check_ORPort_eq (s : ValidateState) :
    check_ORPort s = run_check s (decide (s.options.ORPort < 0),
      log LOG_WARN "ORPort option can't be negative." []) := by
  unfold check_ORPort run_check ValidateState.violation
  by_cases h : s.options.ORPort < 0 <;> simp [h]

theorem check_OnionRouter_ORPort_eq (s : ValidateState) :
    check_OnionRouter_ORPort s =
      run_check s (decide (s.options.OnionRouter ≠ 0 ∧ s.options.ORPort = 0),
        log LOG_WARN "If OnionRouter is set, then ORPort must be positive." []) := by
  unfold check_OnionRouter_ORPort run_check ValidateState.violation
  by_cases h : s.options.OnionRouter ≠ 0 ∧ s.options.ORPort = 0
  · rw [if_pos h, decide_eq_true h]; rfl
  · rw [if_neg h, decide_eq_false h]; rfl

theorem check_OnionRouter_DataDirectory_eq (s : ValidateState) :
    check_OnionRouter_DataDirectory s =
      run_check s (decide (s.options.OnionRouter ≠ 0 ∧ s.options.DataDirectory = none),
        log LOG_WARN "DataDirectory option required for OnionRouter, but not found." []) := by
  unfold check_OnionRouter_DataDirectory run_check ValidateState.violation
  by_cases h : s.options.OnionRouter ≠ 0 ∧ s.options.DataDirectory = none
  · rw [if_pos h, decide_eq_true h]; rfl
  · rw [if_neg h, decide_eq_false h]; rfl

theorem check_OnionRouter_Nickname_eq (s : ValidateState) :
    check_OnionRouter_Nickname s =
      run_check s (decide (s.options.OnionRouter ≠ 0 ∧ s.options.Nickname = none),
        log_fn LOG_WARN "Nickname required for OnionRouter, but not found." []) := by
  unfold check_OnionRouter_Nickname run_check ValidateState.violation_fn
  by_cases h : s.options.OnionRouter ≠ 0 ∧ s.options.Nickname = none
  · rw [if_pos h, decide_eq_true h]; rfl
  · rw [if_neg h, decide_eq_false h]; rfl

theorem check_APPort_eq (s : ValidateState) :
    check_APPort s = run_check s (decide (s.options.APPort < 0),
      log LOG_WARN "APPort option can't be negative." []) := by
  unfold check_APPort run_check ValidateState.violation
  by_cases h : s.options.APPort < 0 <;> simp [h]

theorem check_DirPort_eq (s : ValidateState) :
    check_DirPort s = run_check s (decide (s.options.DirPort < 0),
      log LOG_WARN "DirPort option can't be negative." []) := by
  unfold check_DirPort run_check ValidateState.violation
  by_cases h : s.options.DirPort < 0 <;> simp [h]

theorem check_CoinWeight_eq (s : ValidateState) :
    check_CoinWeight s =
      run_check s (decide (s.options.APPort > 1 ∧
          (Double.lt s.options.CoinWeight Double.zero = true ∨
            Double.ge s.options.CoinWeight Double.one = true)),
        log LOG_WARN "CoinWeight option must be >=0.0 and <1.0." []) := by
  unfold check_CoinWeight run_check ValidateState.violation
  by_cases h : s.options.APPort > 1 ∧
      (Double.lt s.options.CoinWeight Double.zero = true ∨
        Double.ge s.options.CoinWeight Double.one = true)
  · rw [if_pos h, decide_eq_true h]; rfl
  · rw [if_neg h, decide_eq_false h]; rfl

theorem check_MaxConn_low_eq (s : ValidateState) :
    check_MaxConn_low s = run_check s (decide (s.options.MaxConn < 1),
      log LOG_WARN "MaxConn option must be a non-zero positive integer." []) := by
  unfold check_MaxConn_low run_check ValidateState.violation
  by_cases h : s.options.MaxConn < 1 <;> simp [h]

theorem check_MaxConn_high_eq (E : Env) (s : ValidateState) :
    check_MaxConn_high E s = run_check s (decide (s.options.MaxConn ≥ E.MAXCONNECTIONS),
      log LOG_WARN "MaxConn option must be less than %d." [.d E.MAXCONNECTIONS]) := by
  unfold check_MaxConn_high run_check ValidateState.violation
  by_cases h : s.options.MaxConn ≥ E.MAXCONNECTIONS
  · rw [if_pos h, decide_eq_true h]; rfl
  · rw [if_neg h, decide_eq_false h]; rfl

theorem check_DirFetchPostPeriod_eq (s : ValidateState) :
    check_DirFetchPostPeriod s = run_check s (decide (s.options.DirFetchPostPeriod < 1),
      log LOG_WARN "DirFetchPostPeriod option must be positive." []) := by
  unfold check_DirFetchPostPeriod run_check ValidateState.violation
  by_cases h : s.options.DirFetchPostPeriod < 1 <;> simp [h]

theorem check_KeepalivePeriod_eq (s : ValidateState) :
    check_KeepalivePeriod s = run_check s (decide (s.options.KeepalivePeriod < 1),
      log LOG_WARN "KeepalivePeriod option must be positive." []) := by
  unfold check_KeepalivePeriod run_check ValidateState.violation
  by_cases h : s.options.KeepalivePeriod < 1 <;> simp [h]

/-- The validation part is the run of the thirteen checks over the merged
record, with the derived severity filled in. -/
theorem validate_eq (E : Env) (o : or_options_t) :
    validate E o =
      (checks E o).foldl run_check
        { result := 0, options := { o with loglevel := derived_loglevel o }, events := [] } := by
  simp only [validate, check_RouterFile_eq, check_ORPort_eq, check_OnionRouter_ORPort_eq,
    check_OnionRouter_DataDirectory_eq, check_OnionRouter_Nickname_eq, check_APPort_eq,
    check_DirPort_eq, check_CoinWeight_eq, check_MaxConn_low_eq, check_MaxConn_high_eq,
    check_DirFetchPostPeriod_eq, check_KeepalivePeriod_eq, run_check_options,
    check_LogLevel_eq, checks, List.foldl_cons, List.foldl_nil]

theorem validate_events (E : Env) (o : or_options_t) :
    (validate E o).events = violations E o := by
  rw [validate_eq, (foldl_run_check _ _).2.1]; rfl

theorem validate_result (E : Env) (o : or_options_t) :
    (validate E o).result = if violations E o = [] then 0 else -1 := by
  rw [validate_eq, (foldl_run_check _ _).2.2]; rfl

theorem validate_options (E : Env) (o : or_options_t) :
    (validate E o).options = { o with loglevel := derived_loglevel o } := by
  rw [validate_eq, (foldl_run_check _ _).1]

/-- The validation part writes no option field (only the derived severity). -/
theorem load_validate (E : Env) (o : or_options_t) (p : Ptr) :
    load (validate E o).options p = load o p := by
  rw [validate_options]; cases p <;> rfl

/-! ### `getconfig` once the file has been read -/

theorem getconfig_of_read (E : Env) (argv : List String) (cf : FILE)
    (hopen : (config_open E (config_fname E argv)).1 = some cf)
    (hlines : config_get_lines cf ≠ []) :
    (getconfig E argv).ret = (validate E (merged_options E cf argv)).result ∧
      (getconfig E argv).options = (validate E (merged_options E cf argv)).options := by
  rcases h : config_open E (config_fname E argv) with ⟨r, evo⟩
  rw [h] at hopen
  simp only at hopen
  subst hopen
  simp [getconfig, h, hlines, merged_options]

/-- Once the file has been read, the events of `getconfig` end with those of
the validation part. -/
theorem getconfig_events_of_read (E : Env) (argv : List String) (cf : FILE)
    (hopen : (config_open E (config_fname E argv)).1 = some cf)
    (hlines : config_get_lines cf ≠ []) :
    ∃ before, (getconfig E argv).events =
      before ++ (validate E (merged_options E cf argv)).events := by
  rcases h : config_open E (config_fname E argv) with ⟨r, evo⟩
  rw [h] at hopen
  simp only at hopen
  subst hopen
  simp only [getconfig, h, hlines, if_false, merged_options]
  exact ⟨_, rfl⟩

theorem getconfig_of_empty (E : Env) (argv : List String) (cf : FILE)
    (hopen : (config_open E (config_fname E argv)).1 = some cf)
    (hlines : config_get_lines cf = []) :
    (getconfig E argv).ret = -1 ∧ (getconfig E argv).options = default_options ∧
      (getconfig E argv).events =
        [log LOG_DEBUG "Opening config file '%s'" [.s (config_fname E argv)],
          Event.fopen (config_fname E argv)] := by
  have hev : config_open E (config_fname E argv) =
      (some cf, [Event.fopen (config_fname E argv)]) := by
    unfold config_open at hopen ⊢
    split
    · rename_i hbad; rw [if_pos hbad] at hopen; cases hopen
    · rename_i hok; rw [if_neg hok] at hopen; simp only at hopen; rw [hopen]
  simp [getconfig, hev, hlines]

theorem merged_options_eq (E : Env) (cf : FILE) (argv : List String) :
    merged_options E cf argv =
      ((config_get_commandlines argv).1).foldl (assign_entry E)
        ((config_get_lines cf).foldl (assign_entry E) default_options) := by
  unfold merged_options
  rw [config_assign_options, config_assign_options]

/-! ### The rules and the checks -/

theorem violations_eq_nil_iff (E : Env) (o : or_options_t) :
    violations E o = [] ↔ ∀ c ∈ checks E o, c.1 = false := by
  unfold violations
  rw [List.map_eq_nil_iff, List.filter_eq_nil_iff]
  simp

theorem Double.not_lt_zero_iff (x : Double) (hx : x ≠ .nan) :
    ¬ Double.lt x Double.zero = true ↔ Double.le Double.zero x = true := by
  cases x with
  | nan => exact absurd rfl hx
  | ninf => simp [Double.lt, Double.le, Double.zero]
  | pinf => simp [Double.lt, Double.le, Double.zero]
  | fin q => simp [Double.lt, Double.le, Double.zero]

theorem Double.not_ge_one_iff (x : Double) (hx : x ≠ .nan) :
    ¬ Double.ge x Double.one = true ↔ Double.lt x Double.one = true := by
  cases x with
  | nan => exact absurd rfl hx
  | ninf => simp [Double.lt, Double.le, Double.ge, Double.one]
  | pinf => simp [Double.lt, Double.le, Double.ge, Double.one]
  | fin q => simp [Double.lt, Double.le, Double.ge, Double.one]

theorem Double.lt_zero_false_of_le (x : Double) (h : Double.le Double.zero x = true) :
    Double.lt x Double.zero = false := by
  cases x with
  | nan => simp [Double.le, Double.zero] at h
  | ninf => simp [Double.le, Double.zero] at h
  | pinf => simp [Double.lt, Double.zero]
  | fin q =>
    simp only [Double.le, Double.zero, decide_eq_true_eq] at h
    simp [Double.lt, Double.zero, h]

theorem Double.ge_one_false_of_lt (x : Double) (h : Double.lt x Double.one = true) :
    Double.ge x Double.one = false := by
  cases x with
  | nan => simp [Double.lt, Double.one] at h
  | ninf => simp [Double.ge, Double.le, Double.one]
  | pinf => simp [Double.lt, Double.one] at h
  | fin q =>
    simp only [Double.lt, Double.one, decide_eq_true_eq] at h
    simp [Double.ge, Double.le, Double.one, h]

theorem violations_eq_nil_iff_conds (E : Env) (o : or_options_t) :
    violations E o = [] ↔
      (¬ ∃ l, o.LogLevel = some l ∧ l ≠ "err" ∧ l ≠ "warn" ∧ l ≠ "info" ∧ l ≠ "debug") ∧
        ¬ o.RouterFile = none ∧ ¬ o.ORPort < 0 ∧ ¬ (o.OnionRouter ≠ 0 ∧ o.ORPort = 0) ∧
        ¬ (o.OnionRouter ≠ 0 ∧ o.DataDirectory = none) ∧
        ¬ (o.OnionRouter ≠ 0 ∧ o.Nickname = none) ∧ ¬ o.APPort < 0 ∧ ¬ o.DirPort < 0 ∧
        ¬ (o.APPort > 1 ∧ (Double.lt o.CoinWeight Double.zero = true ∨
            Double.ge o.CoinWeight Double.one = true)) ∧
        ¬ o.MaxConn < 1 ∧ ¬ o.MaxConn ≥ E.MAXCONNECTIONS ∧ ¬ o.DirFetchPostPeriod < 1 ∧
        ¬ o.KeepalivePeriod < 1 := by
  rw [violations_eq_nil_iff]
  simp only [checks, List.mem_cons, List.mem_singleton, List.not_mem_nil, or_false,
    forall_eq_or_imp, forall_eq, decide_eq_false_iff_not]

/-- A record that satisfies the rules of the specification violates no check. -/
theorem violations_eq_nil_of_rules (E : Env) (o : or_options_t) (h : satisfies_rules E o) :
    violations E o = [] := by
  rw [violations_eq_nil_iff_conds]
  obtain ⟨b1, b2, b3, b4, b5, b6, b7, b8, b9, ⟨b10, b11⟩, b12, b13⟩ := h
  refine ⟨?_, b2, by omega, ?_, fun h => b5 h.1 h.2, fun h => b6 h.1 h.2, by omega, by omega,
    ?_, by omega, by omega, by omega, by omega⟩
  · rintro ⟨l, hl, e1, e2, e3, e4⟩
    rw [hl] at b1
    simp only [Option.some.injEq] at b1
    rcases b1 with h | h | h | h
    · exact e1 h
    · exact e2 h
    · exact e3 h
    · exact e4 h
  · rintro ⟨hor, hz⟩
    have := b4 hor
    omega
  · rintro ⟨hap, hor⟩
    have := b9 hap
    rw [Double.lt_zero_false_of_le _ this.1, Double.ge_one_false_of_lt _ this.2] at hor
    simp at hor

/-- A record that violates no check, whose LogLevel is set and whose CoinWeight
is a number, satisfies the rules of the specification. -/
theorem rules_of_violations_eq_nil (E : Env) (o : or_options_t) (hL : o.LogLevel ≠ none)
    (hcw : o.CoinWeight ≠ .nan) (h : violations E o = []) : satisfies_rules E o := by
  rw [violations_eq_nil_iff_conds] at h
  obtain ⟨a1, a2, a3, a4, a5, a6, a7, a8, a9, a10, a11, a12, a13⟩ := h
  have h0 := Double.not_lt_zero_iff o.CoinWeight hcw
  have h1 := Double.not_ge_one_iff o.CoinWeight hcw
  refine ⟨?_, a2, by omega, ?_, fun h hd => a5 ⟨h, hd⟩, fun h hn => a6 ⟨h, hn⟩, by omega,
    by omega, ?_, ⟨by omega, by omega⟩, by omega, by omega⟩
  · cases hl : o.LogLevel with
    | none => exact absurd hl hL
    | some l =>
      by_cases e1 : l = "err"
      · exact Or.inl (by rw [e1])
      · by_cases e2 : l = "warn"
        · exact Or.inr (Or.inl (by rw [e2]))
        · by_cases e3 : l = "info"
          · exact Or.inr (Or.inr (Or.inl (by rw [e3])))
          · by_cases e4 : l = "debug"
            · exact Or.inr (Or.inr (Or.inr (by rw [e4])))
            · exact absurd ⟨l, hl, e1, e2, e3, e4⟩ a1
  · intro hor
    have : ¬ o.ORPort = 0 := fun hz => a4 ⟨hor, hz⟩
    omega
  · intro hap
    have hn : ¬ (Double.lt o.CoinWeight Double.zero = true ∨
        Double.ge o.CoinWeight Double.one = true) := fun hor => a9 ⟨hap, hor⟩
    exact ⟨h0.mp (fun hlt => hn (Or.inl hlt)), h1.mp (fun hge => hn (Or.inr hge))⟩

theorem validate_result_values (E : Env) (o : or_options_t) :
    (validate E o).result = 0 ∨ (validate E o).result = -1 := by
  rw [validate_result]; split <;> simp

theorem validate_result_zero_iff_violations (E : Env) (o : or_options_t) :
    (validate E o).result = 0 ↔ violations E o = [] := by
  rw [validate_result]; split <;> simp [*]

/-- On a record whose LogLevel is set and whose CoinWeight is a number, the
validation part returns 0 exactly when the rules of the specification hold,
and -1 otherwise. -/
theorem validate_result_zero_iff (E : Env) (o : or_options_t) (hL : o.LogLevel ≠ none)
    (hcw : o.CoinWeight ≠ .nan) :
    ((validate E o).result = 0 ↔ satisfies_rules E o) ∧
      ((validate E o).result = 0 ∨ (validate E o).result = -1) := by
  refine ⟨?_, validate_result_values E o⟩
  rw [validate_result_zero_iff_violations]
  exact ⟨rules_of_violations_eq_nil E o hL hcw, violations_eq_nil_of_rules E o⟩

/-- The bound on MaxConn is strict: on a record that satisfies the rules,
putting MAXCONNECTIONS in MaxConn makes the validation part return -1, and
putting MAXCONNECTIONS - 1 there (at least 1) leaves it returning 0. -/
theorem validate_MaxConn_boundary (E : Env) (o : or_options_t) (h : satisfies_rules E o)
    (hmax : 2 ≤ E.MAXCONNECTIONS) :
    (validate E { o with MaxConn := E.MAXCONNECTIONS }).result = -1 ∧
      (validate E { o with MaxConn := E.MAXCONNECTIONS - 1 }).result = 0 := by
  obtain ⟨b1, b2, b3, b4, b5, b6, b7, b8, b9, ⟨b10, b11⟩, b12, b13⟩ := h
  constructor
  · rcases validate_result_values E { o with MaxConn := E.MAXCONNECTIONS } with h0 | h0
    · rw [validate_result_zero_iff_violations, violations_eq_nil_iff_conds] at h0
      exact absurd (le_refl _) h0.2.2.2.2.2.2.2.2.2.2.1
    · exact h0
  · rw [validate_result_zero_iff_violations]
    apply violations_eq_nil_of_rules
    exact ⟨b1, b2, b3, b4, b5, b6, b7, b8, b9, ⟨by show 1 ≤ E.MAXCONNECTIONS - 1; omega,
      by show E.MAXCONNECTIONS - 1 < E.MAXCONNECTIONS; omega⟩, b12, b13⟩

/-! ### LogLevel stays set -/

theorem assign_entry_LogLevel (E : Env) (o : or_options_t) (c : config_line)
    (h : o.LogLevel ≠ none) : (assign_entry E o c).LogLevel ≠ none := by
  unfold assign_entry
  cases hr : resolve c.key with
  | none => exact h
  | some e =>
    obtain ⟨name, type, arg⟩ := e
    simp only
    cases hc : coerce E type c.value with
    | none => exact h
    | some v =>
      cases v with
      | str s =>
        cases s with
        | none => exact h
        | some s => cases arg <;> simp [store_val, store_string, h]
      | int i => cases arg <;> simp [store_val, store_int, h]
      | dbl d => cases arg <;> simp [store_val, store_double, h]

theorem foldl_LogLevel (E : Env) :
    ∀ (l : List config_line) (o : or_options_t),
      o.LogLevel ≠ none → (l.foldl (assign_entry E) o).LogLevel ≠ none := by
  intro l
  induction l with
  | nil => intro o h; exact h
  | cons c rest ih => intro o h; exact ih _ (assign_entry_LogLevel E o c h)

theorem merged_options_LogLevel (E : Env) (cf : FILE) (argv : List String) :
    (merged_options E cf argv).LogLevel ≠ none := by
  rw [merged_options_eq]
  exact foldl_LogLevel E _ _ (foldl_LogLevel E _ _ (by decide))

/-- When the config file opens and yields at least one entry, and the merged
CoinWeight is a number, `getconfig` returns 0 exactly when the merged record
satisfies every rule of the specification, and -1 otherwise. -/
theorem getconfig_ret_zero_iff (E : Env) (argv : List String) (cf : FILE)
    (hopen : (config_open E (config_fname E argv)).1 = some cf)
    (hlines : config_get_lines cf ≠ [])
    (hcw : (merged_options E cf argv).CoinWeight ≠ .nan) :
    ((getconfig E argv).ret = 0 ↔ satisfies_rules E (merged_options E cf argv)) ∧
      ((getconfig E argv).ret = 0 ∨ (getconfig E argv).ret = -1) := by
  rw [(getconfig_of_read E argv cf hopen hlines).1]
  exact validate_result_zero_iff E _ (merged_options_LogLevel E cf argv) hcw

/-! ### The match test -/

theorem tolower_ne_zero (a : Char) (h : a ≠ Char.ofNat 0) : tolower a ≠ 0 := by
  have hn : a.toNat ≠ 0 := by
    intro h0
    apply h
    rw [← Char.ofNat_toNat a, h0]
  unfold tolower
  split <;> omega

theorem strncasecmp_chars_eq_zero_iff :
    ∀ (k n : List Char), (∀ ch ∈ k, ch ≠ Char.ofNat 0) →
      (strncasecmp_chars k n k.length = 0 ↔
        k.length ≤ n.length ∧ k.map tolower = (n.take k.length).map tolower) := by
  intro k
  induction k with
  | nil => intro n _; simp [strncasecmp_chars]
  | cons a as ih =>
    intro n hk
    have ha : tolower a ≠ 0 := tolower_ne_zero a (hk a (List.mem_cons_self _ _))
    have has : ∀ ch ∈ as, ch ≠ Char.ofNat 0 := fun ch h => hk ch (List.mem_cons_of_mem _ h)
    cases n with
    | nil =>
      simp only [List.length_cons, strncasecmp_chars, List.length_nil]
      constructor
      · intro h; omega
      · intro h; omega
    | cons b bs =>
      simp only [List.length_cons, strncasecmp_chars, List.take_succ_cons, List.map_cons,
        List.cons.injEq, Nat.add_le_add_iff_right]
      by_cases hab : tolower a = tolower b
      · rw [if_pos hab, ih bs has]
        simp [hab]
      · rw [if_neg hab]
        constructor
        · intro h; exfalso; apply hab; omega
        · intro h; exact absurd h.2.1 hab

/-! ### The warning for a Bool value outside 0 and 1 -/

theorem chain_bool_warning (E : Env) (c : config_line) (name : String) (arg : Ptr)
    (hbad : E.atoi c.value ≠ 0 ∧ E.atoi c.value ≠ 1) :
    ∀ (tbl : List (String × ConfigType × Ptr)) (o : or_options_t),
      tbl.find? (fun e => key_matches c.key e.1) = some (name, CONFIG_TYPE_BOOL, arg) →
      log LOG_WARN "Boolean keyword '%s' expects 0 or 1" [.s c.key] ∈
        (config_compare_chain E c tbl o).2.2 := by
  intro tbl
  induction tbl with
  | nil => intro o h; cases h
  | cons e rest ih =>
    intro o h
    obtain ⟨key, type, arg2⟩ := e
    cases hm : key_matches c.key key with
    | false =>
      simp only [List.find?, hm] at h
      simp only [config_compare_chain, config_compare_of_not_matches E c key type arg2 o hm]
      simpa using ih o h
    | true =>
      simp only [List.find?, hm, Option.some.injEq, Prod.mk.injEq] at h
      obtain ⟨rfl, rfl, rfl⟩ := h
      have ht : strncasecmp c.key key (strlen c.key) = 0 := by
        simpa [key_matches] using hm
      simp [config_compare_chain, config_compare, ht, hbad.1, hbad.2]

/-! ## The claims -/

/-! ## C1 -/

/-- C1 (a defect of the code against the claim). The claim: once the config
file opens and yields at least one entry, `getconfig` returns 0 exactly when
the merged record satisfies every rule, one of them being that APPort > 1
implies 0.0 <= CoinWeight < 1.0. The code at the config file `RouterFile r`,
`APPort 2`, `CoinWeight nan` with no command-line option: the file opens and
yields three entries, the merged record has APPort = 2 and CoinWeight = NaN, so
it breaks the CoinWeight rule, and yet `getconfig` returns 0 and logs no
warning. -/
theorem C1_nan_coinweight_passes_validation :
    (config_open (example_env file_coinweight_nan)
        (config_fname (example_env file_coinweight_nan) ["tor"])).1 = some file_coinweight_nan ∧
      (config_get_lines file_coinweight_nan).length = 3 ∧
      (merged_options (example_env file_coinweight_nan) file_coinweight_nan ["tor"]).APPort = 2 ∧
      (merged_options (example_env file_coinweight_nan) file_coinweight_nan ["tor"]).CoinWeight
        = Double.nan ∧
      ¬ satisfies_rules (example_env file_coinweight_nan)
          (merged_options (example_env file_coinweight_nan) file_coinweight_nan ["tor"]) ∧
      (getconfig (example_env file_coinweight_nan) ["tor"]).ret = 0 ∧
      ∀ e ∈ (getconfig (example_env file_coinweight_nan) ["tor"]).events,
        e.is_warning = false := by
  refine ⟨by decide, by decide, by decide, by decide, ?_, by decide, by decide⟩
  intro h
  have h9 := h.2.2.2.2.2.2.2.2.1
  revert h9
  decide

/-! ## C2 -/

/-- C2 (amended). Within one source the earliest acceptable entry wins: for
every file whose lines all tokenise, every record the file pass starts from
and every option `p`, if `c` is the earliest entry in file order that has a
value for `p` (its key resolves to `p` and its value is acceptable for the
type of `p`: a Bool value must parse to 0 or 1), then after the file pass
(`config_get_lines` followed by `config_assign`) the field of `p` holds the
value coerced from `c`. -/
theorem C2_earliest_acceptable_entry_wins (E : Env) (o : or_options_t) (f : FILE) (p : Ptr)
    (pre post : List config_line) (c : config_line) (v : Val)
    (htok : ParsedLine.malformed ∉ f)
    (hsplit : file_entries f = pre ++ c :: post)
    (hpre : ∀ d ∈ pre, entry_value E p d = none)
    (hc : entry_value E p c = some v) :
    load (config_assign E o (config_get_lines f)).1 p = v := by
  rw [config_assign_options, config_get_lines_eq f htok, hsplit, List.reverse_append,
    List.reverse_cons, List.append_assoc, List.singleton_append]
  exact load_foldl_split E p post.reverse pre.reverse c v o hc
    (fun d hd => hpre d (List.mem_reverse.mp hd))

/-- C2, worked example: the file `ORPort 100`, `ORPort 200` and no
command-line option give ORPort = 100. -/
theorem C2_witness_orport_100 :
    ParsedLine.malformed ∉ file_orport_twice ∧
      file_entries file_orport_twice =
        [] ++ ({ key := "ORPort", value := "100" } : config_line) ::
          [{ key := "ORPort", value := "200" }] ∧
      (∀ d ∈ ([] : List config_line), entry_value (example_env file_orport_twice) .ORPort d = none) ∧
      entry_value (example_env file_orport_twice) .ORPort { key := "ORPort", value := "100" } =
        some (.int 100) ∧
      load (config_assign (example_env file_orport_twice) default_options
        (config_get_lines file_orport_twice)).1 .ORPort = .int 100 ∧
      (getconfig (example_env file_orport_twice) ["tor"]).options.ORPort = 100 :=
  ⟨by decide, by decide, by simp, by decide,
    C2_earliest_acceptable_entry_wins (example_env file_orport_twice) default_options
      file_orport_twice .ORPort [] [{ key := "ORPort", value := "200" }]
      { key := "ORPort", value := "100" } (.int 100) (by decide) (by decide) (by simp)
      (by decide),
    by decide⟩

/-- C2 as stated fails: in the file `OnionRouter 2`, `OnionRouter 1` the
earliest entry whose key resolves to OnionRouter is `OnionRouter 2`, and after
the file pass the field holds 1, the value of the later entry. -/
theorem C2_counterexample_bool_out_of_range :
    ParsedLine.malformed ∉ file_onionrouter_twice ∧
      file_entries file_onionrouter_twice =
        [{ key := "OnionRouter", value := "2" }, { key := "OnionRouter", value := "1" }] ∧
      resolve "OnionRouter" = some ("OnionRouter", CONFIG_TYPE_BOOL, .OnionRouter) ∧
      (example_env file_onionrouter_twice).atoi "2" = 2 ∧
      (config_assign (example_env file_onionrouter_twice) default_options
        (config_get_lines file_onionrouter_twice)).1.OnionRouter = 1 := by
  decide

/-! ## C3 -/

/-- C3 (amended). A command-line entry overrides the file: whenever the
config file opens and yields at least one entry, for every option `p`, if `c`
is the earliest command-line entry in argument order that has a value for `p`
(its key resolves to `p` and its value is acceptable for the type of `p`), then
the final record of `getconfig` holds the value coerced from `c` in the field
of `p`, whatever the file assigns to it. -/
theorem C3_commandline_overrides_file (E : Env) (argv : List String) (cf : FILE) (p : Ptr)
    (pre post : List config_line) (c : config_line) (v : Val)
    (hopen : (config_open E (config_fname E argv)).1 = some cf)
    (hlines : config_get_lines cf ≠ [])
    (hsplit : (config_get_commandlines argv).1.reverse = pre ++ c :: post)
    (hpre : ∀ d ∈ pre, entry_value E p d = none)
    (hc : entry_value E p c = some v) :
    load (getconfig E argv).options p = v := by
  have hcl : (config_get_commandlines argv).1 = post.reverse ++ c :: pre.reverse := by
    have := congrArg List.reverse hsplit
    rw [List.reverse_reverse] at this
    rw [this, List.reverse_append, List.reverse_cons, List.append_assoc, List.singleton_append]
  rw [(getconfig_of_read E argv cf hopen hlines).2, load_validate, merged_options_eq, hcl]
  exact load_foldl_split E p post.reverse pre.reverse c v _ hc
    (fun d hd => hpre d (List.mem_reverse.mp hd))

/-- C3, worked example: the file `ORPort 100`, `ORPort 200` and the arguments
`-ORPort 443` give ORPort = 443. -/
theorem C3_witness_orport_443 :
    (config_open (example_env file_orport_twice)
        (config_fname (example_env file_orport_twice) ["tor", "-ORPort", "443"])).1 =
        some file_orport_twice ∧
      config_get_lines file_orport_twice ≠ [] ∧
      (config_get_commandlines ["tor", "-ORPort", "443"]).1.reverse =
        [] ++ ({ key := "ORPort", value := "443" } : config_line) :: [] ∧
      entry_value (example_env file_orport_twice) .ORPort { key := "ORPort", value := "443" } =
        some (.int 443) ∧
      load (getconfig (example_env file_orport_twice) ["tor", "-ORPort", "443"]).options .ORPort =
        .int 443 :=
  ⟨by decide, by decide, by decide, by decide,
    C3_commandline_overrides_file (example_env file_orport_twice) ["tor", "-ORPort", "443"]
      file_orport_twice .ORPort [] [] { key := "ORPort", value := "443" } (.int 443)
      (by decide) (by decide) (by decide) (by simp) (by decide)⟩

/-- C3 as stated fails in three ways. With the file `OnionRouter 1` and the
arguments `-OnionRouter 5` the final OnionRouter is 1, the value of the file.
With an empty file and the arguments `-ORPort 443` the call returns -1 before
the command line is read and ORPort stays 0. With the file `ORPort 100` and the
arguments `-ORPort 1 -ORPort 2` the final ORPort is 1, not the 2 of the second
pair. -/
theorem C3_counterexample :
    ((config_get_commandlines ["tor", "-OnionRouter", "5"]).1 =
        [{ key := "OnionRouter", value := "5" }] ∧
      resolve "OnionRouter" = some ("OnionRouter", CONFIG_TYPE_BOOL, .OnionRouter) ∧
      (example_env [.pair "OnionRouter" "1"]).atoi "5" = 5 ∧
      (getconfig (example_env [.pair "OnionRouter" "1"])
        ["tor", "-OnionRouter", "5"]).options.OnionRouter = 1) ∧
    ((config_get_commandlines ["tor", "-ORPort", "443"]).1 =
        [{ key := "ORPort", value := "443" }] ∧
      resolve "ORPort" = some ("ORPort", CONFIG_TYPE_INT, .ORPort) ∧
      (getconfig (example_env []) ["tor", "-ORPort", "443"]).ret = -1 ∧
      (getconfig (example_env []) ["tor", "-ORPort", "443"]).options.ORPort = 0) ∧
    ((config_get_commandlines ["tor", "-ORPort", "1", "-ORPort", "2"]).1 =
        [{ key := "ORPort", value := "2" }, { key := "ORPort", value := "1" }] ∧
      (example_env [.pair "ORPort" "100"]).atoi "2" = 2 ∧
      (getconfig (example_env [.pair "ORPort" "100"])
        ["tor", "-ORPort", "1", "-ORPort", "2"]).options.ORPort = 1) := by
  decide

/-! ## C4 -/

/-- C4. An abbreviated key resolves to the first option, in the table order
of `config_assign`, whose canonical name it matches, and only that field is
assigned: for every entry whose key resolves to `(name, type, arg)` and whose
value is acceptable for `type`, `config_assign` stores the coerced value in the
field behind `arg` and leaves every other option field and the derived
severity unchanged. -/
theorem C4_first_match_only (E : Env) (o : or_options_t) (c : config_line) (name : String)
    (type : ConfigType) (arg : Ptr) (v : Val)
    (hres : resolve c.key = some (name, type, arg))
    (hv : coerce E type c.value = some v) :
    load (config_assign E o [c]).1 arg = v ∧
      (∀ q, q ≠ arg → load (config_assign E o [c]).1 q = load o q) ∧
      (config_assign E o [c]).1.loglevel = o.loglevel := by
  have hstep : (config_assign E o [c]).1 = assign_entry E o c := by
    rw [config_assign_options]; rfl
  rw [hstep]
  refine ⟨?_, ?_, loglevel_assign_entry E o c⟩
  · rw [load_assign_entry]
    simp [entry_value, hres, hv]
  · intro q hq
    rw [load_assign_entry]
    have hne : ¬ arg = q := fun h => hq h.symm
    simp [entry_value, hres, hne]

/-- C4, worked example: the entry (`Log`, `debug`) sets LogLevel to "debug"
and leaves LogFile and DebugLogFile unchanged. -/
theorem C4_witness_log_debug :
    resolve "Log" = some ("LogLevel", CONFIG_TYPE_STRING, .LogLevel) ∧
      coerce (example_env []) CONFIG_TYPE_STRING "debug" = some (.str (some "debug")) ∧
      load (config_assign (example_env []) default_options
        [{ key := "Log", value := "debug" }]).1 .LogLevel = .str (some "debug") ∧
      load (config_assign (example_env []) default_options
        [{ key := "Log", value := "debug" }]).1 .LogFile = load default_options .LogFile ∧
      load (config_assign (example_env []) default_options
        [{ key := "Log", value := "debug" }]).1 .DebugLogFile =
          load default_options .DebugLogFile :=
  ⟨by decide, by decide,
    (C4_first_match_only (example_env []) default_options { key := "Log", value := "debug" }
      "LogLevel" CONFIG_TYPE_STRING .LogLevel (.str (some "debug")) (by decide) (by decide)).1,
    (C4_first_match_only (example_env []) default_options { key := "Log", value := "debug" }
      "LogLevel" CONFIG_TYPE_STRING .LogLevel (.str (some "debug")) (by decide)
      (by decide)).2.1 .LogFile (by decide),
    (C4_first_match_only (example_env []) default_options { key := "Log", value := "debug" }
      "LogLevel" CONFIG_TYPE_STRING .LogLevel (.str (some "debug")) (by decide)
      (by decide)).2.1 .DebugLogFile (by decide)⟩

/-! ## C5 -/

/-- C5. The match test of `config_compare` is a case-insensitive test for an
initial segment: for every C string `k` (no NUL inside) and canonical name,
`strncasecmp(k, name, strlen(k))` is 0 exactly when `k` is no longer than
`name` and equals the first `length(k)` characters of `name` ignoring ASCII
case; and `config_compare` returns 0 without touching the record or the log
exactly when that fails. -/
theorem C5_match_is_initial_segment_test (k name : String)
    (hk : ∀ ch ∈ k.data, ch ≠ Char.ofNat 0) :
    (strncasecmp k name (strlen k) = 0 ↔ is_initial_segment_ignoring_case k name) ∧
      ∀ (E : Env) (value : String) (type : ConfigType) (arg : Ptr) (o : or_options_t),
        config_compare E { key := k, value := value } name type arg o = (0, o, []) ↔
          ¬ is_initial_segment_ignoring_case k name := by
  have hiff : strncasecmp k name (strlen k) = 0 ↔ is_initial_segment_ignoring_case k name :=
    strncasecmp_chars_eq_zero_iff k.data name.data hk
  refine ⟨hiff, ?_⟩
  intro E value type arg o
  rw [← hiff]
  by_cases h : strncasecmp k name (strlen k) = 0
  · simp only [h, not_true_eq_false, iff_false]
    cases type <;> simp [config_compare, h]
    split <;> simp
  · simp [config_compare, h]

/-- C5, worked examples: `orport` matches `ORPort`, and `ORPortX`, longer than
the canonical name, does not. -/
theorem C5_witness_orport :
    (∀ ch ∈ "orport".data, ch ≠ Char.ofNat 0) ∧
      (∀ ch ∈ "ORPortX".data, ch ≠ Char.ofNat 0) ∧
      is_initial_segment_ignoring_case "orport" "ORPort" ∧
      ¬ is_initial_segment_ignoring_case "ORPortX" "ORPort" ∧
      strncasecmp "orport" "ORPort" (strlen "orport") = 0 ∧
      strncasecmp "ORPortX" "ORPort" (strlen "ORPortX") ≠ 0 :=
  ⟨by decide, by decide, ⟨by decide, by decide⟩, fun h => absurd h.1 (by decide),
    (C5_match_is_initial_segment_test "orport" "ORPort" (by decide)).1.mpr
      ⟨by decide, by decide⟩,
    fun h => absurd ((C5_match_is_initial_segment_test "ORPortX" "ORPort" (by decide)).1.mp h).1
      (by decide)⟩

/-! ## C6 -/

/-- C6. A Bool entry whose value parses outside 0 and 1 is dropped: for every
record and every entry whose key resolves to a Bool option (these are
OnionRouter, TrafficShaping, LinkPadding, IgnoreVersion and RunAsDaemon), if
the parsed value is neither 0 nor 1 then `config_assign` returns the record
unchanged (every field, so the walk through the later table entries assigns
nothing) and logs the warning "Boolean keyword '%s' expects 0 or 1"; if the
parsed value is 0 or 1 the field is set to it. -/
theorem C6_bool_out_of_range_dropped (E : Env) (o : or_options_t) (c : config_line)
    (name : String) (arg : Ptr)
    (hres : resolve c.key = some (name, CONFIG_TYPE_BOOL, arg)) :
    (arg = .OnionRouter ∨ arg = .TrafficShaping ∨ arg = .LinkPadding ∨ arg = .IgnoreVersion ∨
        arg = .RunAsDaemon) ∧
      (E.atoi c.value ≠ 0 ∧ E.atoi c.value ≠ 1 →
        (config_assign E o [c]).1 = o ∧
          log LOG_WARN "Boolean keyword '%s' expects 0 or 1" [.s c.key] ∈
            (config_assign E o [c]).2) ∧
      (E.atoi c.value = 0 ∨ E.atoi c.value = 1 →
        load (config_assign E o [c]).1 arg = .int (E.atoi c.value)) := by
  have hstep : (config_assign E o [c]).1 = assign_entry E o c := by
    rw [config_assign_options]; rfl
  refine ⟨?_, ?_, ?_⟩
  · have hmem := resolve_mem c.key _ hres
    simp only [option_table, List.mem_cons, List.mem_singleton, List.not_mem_nil, or_false,
      Prod.mk.injEq, reduceCtorEq, and_false, false_and, false_or, or_false, true_and] at hmem
    rcases hmem with h | h | h | h | h <;> simp [h.2]
  · intro hbad
    refine ⟨?_, ?_⟩
    · rw [hstep]
      simp [assign_entry, hres, coerce, hbad.1, hbad.2]
    · have hw := chain_bool_warning E c name arg hbad option_table o hres
      simp only [config_assign, List.mem_append]
      exact Or.inl (Or.inl hw)
  · intro hok
    rw [hstep, load_assign_entry]
    simp [entry_value, hres, coerce, hok]

/-- C6, worked example: the entry `OnionRouter 2` leaves the record as it
was and logs the warning. -/
theorem C6_witness_onionrouter_2 :
    resolve "OnionRouter" = some ("OnionRouter", CONFIG_TYPE_BOOL, .OnionRouter) ∧
      ((example_env []).atoi "2" ≠ 0 ∧ (example_env []).atoi "2" ≠ 1) ∧
      (config_assign (example_env []) default_options
        [{ key := "OnionRouter", value := "2" }]).1 = default_options ∧
      log LOG_WARN "Boolean keyword '%s' expects 0 or 1" [.s "OnionRouter"] ∈
        (config_assign (example_env []) default_options
          [{ key := "OnionRouter", value := "2" }]).2 :=
  ⟨by decide, by decide,
    ((C6_bool_out_of_range_dropped (example_env []) default_options
      { key := "OnionRouter", value := "2" } "OnionRouter" .OnionRouter (by decide)).2.1
      (by decide)).1,
    ((C6_bool_out_of_range_dropped (example_env []) default_options
      { key := "OnionRouter", value := "2" } "OnionRouter" .OnionRouter (by decide)).2.1
      (by decide)).2⟩

/-! ## C7 -/

/-- C7 (amended). Given an empty config file and no command-line overrides,
`getconfig` fails at once: it returns -1 straight after reading the file,
before the validation part runs, with RouterFile unset in the record and no
warning logged, so no "RouterFile option required" violation is reported. -/
theorem C7_empty_file_fails_before_validation (E : Env) (argv : List String)
    (hopen : (config_open E (config_fname E argv)).1 = some [])
    (_hargs : (config_get_commandlines argv).1 = []) :
    (getconfig E argv).ret = -1 ∧
      (getconfig E argv).options.RouterFile = none ∧
      (∀ e ∈ (getconfig E argv).events, e.is_warning = false) ∧
      log LOG_WARN "RouterFile option required, but not found." [] ∉
        (getconfig E argv).events := by
  obtain ⟨h1, h2, h3⟩ := getconfig_of_empty E argv [] hopen rfl
  rw [h1, h2, h3]
  refine ⟨rfl, rfl, ?_, ?_⟩
  · intro e he
    simp only [List.mem_cons, List.mem_singleton, List.not_mem_nil, or_false] at he
    rcases he with rfl | rfl <;> rfl
  · simp [log]

/-- C7, worked example: an empty file named by `-f torrc`. -/
theorem C7_witness_empty_file :
    (config_open (example_env []) (config_fname (example_env []) ["tor", "-f", "torrc"])).1 =
        some [] ∧
      (config_get_commandlines ["tor", "-f", "torrc"]).1 = [] ∧
      (getconfig (example_env []) ["tor", "-f", "torrc"]).ret = -1 ∧
      (getconfig (example_env []) ["tor", "-f", "torrc"]).options.RouterFile = none ∧
      log LOG_WARN "RouterFile option required, but not found." [] ∉
        (getconfig (example_env []) ["tor", "-f", "torrc"]).events :=
  ⟨by decide, by decide,
    (C7_empty_file_fails_before_validation (example_env []) ["tor", "-f", "torrc"]
      (by decide) (by decide)).1,
    (C7_empty_file_fails_before_validation (example_env []) ["tor", "-f", "torrc"]
      (by decide) (by decide)).2.1,
    (C7_empty_file_fails_before_validation (example_env []) ["tor", "-f", "torrc"]
      (by decide) (by decide)).2.2.2⟩

/-- C7 as stated fails: with an empty config file and no command-line option
`getconfig` returns -1 with RouterFile unset, and the events of the run are the
debug line for the file name and the `fopen` call; the violation "RouterFile
option required, but not found." is not among them. -/
theorem C7_counterexample_nothing_reported :
    (getconfig (example_env []) ["tor"]).ret = -1 ∧
      (getconfig (example_env []) ["tor"]).options.RouterFile = none ∧
      (getconfig (example_env []) ["tor"]).events =
        [log LOG_DEBUG "Opening config file '%s'" [.s "/usr/local/etc/tor/torrc"],
          Event.fopen "/usr/local/etc/tor/torrc"] ∧
      log LOG_WARN "RouterFile option required, but not found." [] ∉
        (getconfig (example_env []) ["tor"]).events := by
  decide

/-! ## C8 -/

/-- C8. The validator never short-circuits: for every record, the validation
part of `getconfig` logs exactly the messages of the violated checks, one for
each violated check in source order and none for a satisfied check, so the
number of messages is the number of violated checks, and it returns -1 exactly
when there is one. For a record with OnionRouter = 1, ORPort = 0,
DataDirectory unset, Nickname unset and every other rule satisfied it returns
-1 and logs exactly three violations, all distinct. Whenever the config file
opens and yields at least one entry, `getconfig` returns what the validation
part returns on the merged record, and its log ends with those messages. -/
theorem C8_every_violation_logged (E : Env) (o : or_options_t) :
    (validate E o).events = violations E o ∧
      (validate E o).events.length = (checks E o).countP (fun c => c.1) ∧
      (validate E o).result = (if violations E o = [] then 0 else -1) ∧
      (o.OnionRouter = 1 → o.ORPort = 0 → o.DataDirectory = none → o.Nickname = none →
        (o.LogLevel = some "err" ∨ o.LogLevel = some "warn" ∨ o.LogLevel = some "info" ∨
          o.LogLevel = some "debug") →
        o.RouterFile ≠ none → 0 ≤ o.APPort → 0 ≤ o.DirPort →
        (1 < o.APPort → Double.le Double.zero o.CoinWeight = true ∧
          Double.lt o.CoinWeight Double.one = true) →
        (1 ≤ o.MaxConn ∧ o.MaxConn < E.MAXCONNECTIONS) →
        1 ≤ o.DirFetchPostPeriod → 1 ≤ o.KeepalivePeriod →
        (validate E o).result = -1 ∧
          (validate E o).events =
            [log LOG_WARN "If OnionRouter is set, then ORPort must be positive." [],
              log LOG_WARN "DataDirectory option required for OnionRouter, but not found." [],
              log_fn LOG_WARN "Nickname required for OnionRouter, but not found." []] ∧
          (validate E o).events.Nodup) ∧
      (∀ (argv : List String) (cf : FILE),
        (config_open E (config_fname E argv)).1 = some cf → config_get_lines cf ≠ [] →
        merged_options E cf argv = o →
        (getconfig E argv).ret = (validate E o).result ∧
          ∃ before, (getconfig E argv).events = before ++ (validate E o).events) := by
  have hev := validate_events E o
  have hres := validate_result E o
  refine ⟨hev, ?_, hres, ?_, ?_⟩
  · rw [hev, violations, List.length_map, List.countP_eq_length_filter]
  rotate_left
  · intro argv cf hopen hlines hm
    rw [← hm]
    exact ⟨(getconfig_of_read E argv cf hopen hlines).1,
      getconfig_events_of_read E argv cf hopen hlines⟩
  · intro hOR hPort hDD hNick hLog hRF hAP hDir hCW hMC hDF hKA
    have d1 : decide (∃ l, o.LogLevel = some l ∧ l ≠ "err" ∧ l ≠ "warn" ∧ l ≠ "info" ∧
        l ≠ "debug") = false := by
      rw [decide_eq_false_iff_not]
      rintro ⟨l, hl, e1, e2, e3, e4⟩
      rw [hl] at hLog
      simp only [Option.some.injEq] at hLog
      rcases hLog with h | h | h | h
      · exact e1 h
      · exact e2 h
      · exact e3 h
      · exact e4 h
    have d9 : decide (o.APPort > 1 ∧ (Double.lt o.CoinWeight Double.zero = true ∨
        Double.ge o.CoinWeight Double.one = true)) = false := by
      rw [decide_eq_false_iff_not]
      rintro ⟨hap, hor⟩
      have := hCW hap
      rw [Double.lt_zero_false_of_le _ this.1, Double.ge_one_false_of_lt _ this.2] at hor
      simp at hor
    have d2 : decide (o.RouterFile = none) = false := by simpa using hRF
    have d3 : decide (o.ORPort < 0) = false := by simp [hPort]
    have d4 : decide (o.OnionRouter ≠ 0 ∧ o.ORPort = 0) = true := by simp [hOR, hPort]
    have d5 : decide (o.OnionRouter ≠ 0 ∧ o.DataDirectory = none) = true := by simp [hOR, hDD]
    have d6 : decide (o.OnionRouter ≠ 0 ∧ o.Nickname = none) = true := by simp [hOR, hNick]
    have d7 : decide (o.APPort < 0) = false := by simpa using hAP
    have d8 : decide (o.DirPort < 0) = false := by simpa using hDir
    have d10 : decide (o.MaxConn < 1) = false := by simpa using hMC.1
    have d11 : decide (o.MaxConn ≥ E.MAXCONNECTIONS) = false := by simpa using hMC.2
    have d12 : decide (o.DirFetchPostPeriod < 1) = false := by simpa using hDF
    have d13 : decide (o.KeepalivePeriod < 1) = false := by simpa using hKA
    have hv : violations E o =
        [log LOG_WARN "If OnionRouter is set, then ORPort must be positive." [],
          log LOG_WARN "DataDirectory option required for OnionRouter, but not found." [],
          log_fn LOG_WARN "Nickname required for OnionRouter, but not found." []] := by
      simp only [violations, checks, d1, d2, d3, d4, d5, d6, d7, d8, d9, d10, d11, d12, d13]
      rfl
    rw [hres, hev, hv]
    exact ⟨by simp, rfl, by decide⟩

/-- C8, worked example: the defaults with RouterFile set and OnionRouter = 1;
and `getconfig` on the file `RouterFile r`, `OnionRouter 1`, which returns -1
and whose warnings are the three violations. -/
theorem C8_witness_three_violations :
    (validate (example_env []) record_onionrouter_only).result = -1 ∧
      (validate (example_env []) record_onionrouter_only).events =
        [log LOG_WARN "If OnionRouter is set, then ORPort must be positive." [],
          log LOG_WARN "DataDirectory option required for OnionRouter, but not found." [],
          log_fn LOG_WARN "Nickname required for OnionRouter, but not found." []] ∧
      (validate (example_env []) record_onionrouter_only).events.Nodup ∧
      (getconfig (example_env file_onionrouter_only) ["tor"]).ret = -1 ∧
      (getconfig (example_env file_onionrouter_only) ["tor"]).events.filter Event.is_warning =
        [log LOG_WARN "If OnionRouter is set, then ORPort must be positive." [],
          log LOG_WARN "DataDirectory option required for OnionRouter, but not found." [],
          log_fn LOG_WARN "Nickname required for OnionRouter, but not found." []] :=
  ⟨((C8_every_violation_logged (example_env []) record_onionrouter_only).2.2.2.1
      (by decide) (by decide) (by decide) (by decide) (by decide) (by decide) (by decide)
      (by decide) (by decide) (by decide) (by decide) (by decide)).1,
    ((C8_every_violation_logged (example_env []) record_onionrouter_only).2.2.2.1
      (by decide) (by decide) (by decide) (by decide) (by decide) (by decide) (by decide)
      (by decide) (by decide) (by decide) (by decide) (by decide)).2.1,
    ((C8_every_violation_logged (example_env []) record_onionrouter_only).2.2.2.1
      (by decide) (by decide) (by decide) (by decide) (by decide) (by decide) (by decide)
      (by decide) (by decide) (by decide) (by decide) (by decide)).2.2,
    by decide, by decide⟩

/-! ## C9 -/

/-- C9 (amended). The defaults are set once, at the start of `getconfig`,
before either source is read; the validator applies no default. Whenever the
config file opens and yields at least one entry, every option field of the
final record equals that field of the merged record (so a field that a source
set to zero stays zero), and a field for which no file entry and no
command-line entry has a value holds its default at the end. -/
theorem C9_defaults_only_before_sources (E : Env) (argv : List String) (cf : FILE) (p : Ptr)
    (hopen : (config_open E (config_fname E argv)).1 = some cf)
    (hlines : config_get_lines cf ≠ []) :
    load (getconfig E argv).options p = load (merged_options E cf argv) p ∧
      ((∀ d ∈ config_get_lines cf, entry_value E p d = none) →
        (∀ d ∈ (config_get_commandlines argv).1, entry_value E p d = none) →
        load (getconfig E argv).options p = load default_options p) := by
  have h1 : load (getconfig E argv).options p = load (merged_options E cf argv) p := by
    rw [(getconfig_of_read E argv cf hopen hlines).2, load_validate]
  refine ⟨h1, ?_⟩
  intro hf hc
  rw [h1, merged_options_eq, load_foldl_of_no_value E p _ _ hc, load_foldl_of_no_value E p _ _ hf]

/-- C9, worked example: with the file `RouterFile r`, `MaxConn 0` the final
MaxConn is the merged 0, and KeepalivePeriod, which no entry names, is the
default 300. -/
theorem C9_witness_maxconn_zero :
    (config_open (example_env file_maxconn_zero)
        (config_fname (example_env file_maxconn_zero) ["tor"])).1 = some file_maxconn_zero ∧
      config_get_lines file_maxconn_zero ≠ [] ∧
      load (merged_options (example_env file_maxconn_zero) file_maxconn_zero ["tor"]) .MaxConn =
        .int 0 ∧
      load (getconfig (example_env file_maxconn_zero) ["tor"]).options .MaxConn =
        load (merged_options (example_env file_maxconn_zero) file_maxconn_zero ["tor"])
          .MaxConn ∧
      load (getconfig (example_env file_maxconn_zero) ["tor"]).options .KeepalivePeriod =
        load default_options .KeepalivePeriod :=
  ⟨by decide, by decide, by decide,
    (C9_defaults_only_before_sources (example_env file_maxconn_zero) ["tor"] file_maxconn_zero
      .MaxConn (by decide) (by decide)).1,
    (C9_defaults_only_before_sources (example_env file_maxconn_zero) ["tor"] file_maxconn_zero
      .KeepalivePeriod (by decide) (by decide)).2 (by decide) (by decide)⟩

/-- C9 as stated fails: with the file `RouterFile r`, `MaxConn 0` the merged
MaxConn is 0, a field with the documented default 900, and the final record
still holds 0; `getconfig` returns -1 and logs the MaxConn violation. -/
theorem C9_counterexample_maxconn_stays_zero :
    (merged_options (example_env file_maxconn_zero) file_maxconn_zero ["tor"]).MaxConn = 0 ∧
      default_options.MaxConn = 900 ∧
      (getconfig (example_env file_maxconn_zero) ["tor"]).options.MaxConn = 0 ∧
      (getconfig (example_env file_maxconn_zero) ["tor"]).ret = -1 ∧
      log LOG_WARN "MaxConn option must be a non-zero positive integer." [] ∈
        (getconfig (example_env file_maxconn_zero) ["tor"]).events := by
  decide

/-! ## C10 -/

/-- C10. The record built purely from the defaults set at the start of
`getconfig` violates exactly one check, RouterFile == NULL, when
MAXCONNECTIONS > 900: the validation part returns -1 and logs only
"RouterFile option required, but not found."; and with RouterFile alone set,
to any name, it logs nothing, returns 0, and every rule of the specification
holds. -/
theorem C10_defaults_lack_only_routerfile (E : Env) (hmax : 900 < E.MAXCONNECTIONS) :
    (validate E default_options).result = -1 ∧
      (validate E default_options).events =
        [log LOG_WARN "RouterFile option required, but not found." []] ∧
      ∀ r : String,
        (validate E { default_options with RouterFile := some r }).result = 0 ∧
          (validate E { default_options with RouterFile := some r }).events = [] ∧
          satisfies_rules E { default_options with RouterFile := some r } := by
  have hnot : ¬ (E.MAXCONNECTIONS ≤ 900) := by omega
  have hv : violations E default_options =
      [log LOG_WARN "RouterFile option required, but not found." []] := by
    simp [violations, checks, default_options, hnot]
  refine ⟨?_, ?_, ?_⟩
  · rw [validate_result, hv]; simp
  · rw [validate_events, hv]
  · intro r
    have hr : violations E { default_options with RouterFile := some r } = [] := by
      simp [violations, checks, default_options, hnot]
    refine ⟨?_, ?_, ?_⟩
    · rw [validate_result, hr]; simp
    · rw [validate_events, hr]
    · simp [satisfies_rules, default_options, hmax]

/-- C10, worked example: `MAXCONNECTIONS` = 1000. -/
theorem C10_witness_maxconnections_1000 :
    900 < (example_env []).MAXCONNECTIONS ∧
      (validate (example_env []) default_options).events =
        [log LOG_WARN "RouterFile option required, but not found." []] ∧
      (validate (example_env []) { default_options with RouterFile := some "r" }).result = 0 :=
  ⟨by decide, (C10_defaults_lack_only_routerfile (example_env []) (by decide)).2.1,
    ((C10_defaults_lack_only_routerfile (example_env []) (by decide)).2.2 "r").1⟩

/-! ## Numeric text, file names and argument scans -/

/-! ### Values without a numeric start -/

theorem read_fraction_of_not_digit (cs : List Char)
    (h : (match cs with | c :: _ => isdigit c | [] => false) = false) :
    read_fraction cs 0 0 = (0, 0, cs) := by
  cases cs with
  | nil => rfl
  | cons c rest => simp only at h; simp [read_fraction, h]

/-- The chain stops at the first matching entry unless that entry is a Bool
with a value outside 0 and 1. -/
theorem chain_of_first_match (E : Env) (c : config_line) (name : String) (type : ConfigType)
    (arg : Ptr)
    (hacc : ¬ (type = CONFIG_TYPE_BOOL ∧ E.atoi c.value ≠ 0 ∧ E.atoi c.value ≠ 1)) :
    ∀ (tbl : List (String × ConfigType × Ptr)) (o : or_options_t),
      tbl.find? (fun e => key_matches c.key e.1) = some (name, type, arg) →
      config_compare_chain E c tbl o =
        (true, (config_compare E c name type arg o).2.1,
          (config_compare E c name type arg o).2.2) := by
  intro tbl
  induction tbl with
  | nil => intro o h; cases h
  | cons e rest ih =>
    intro o h
    obtain ⟨key, ty, a⟩ := e
    cases hm : key_matches c.key key with
    | false =>
      simp only [List.find?, hm] at h
      simp only [config_compare_chain, config_compare_of_not_matches E c key ty a o hm]
      simp [ih o h]
    | true =>
      simp only [List.find?, hm, Option.some.injEq, Prod.mk.injEq] at h
      obtain ⟨rfl, rfl, rfl⟩ := h
      have hne := (config_compare_of_matches E c key ty a o hm).2.mpr hacc
      simp only [config_compare_chain, hne, ne_eq, not_false_eq_true, if_true]

theorem config_assign_single_of_first_match (E : Env) (o : or_options_t) (c : config_line)
    (name : String) (type : ConfigType) (arg : Ptr)
    (hres : resolve c.key = some (name, type, arg))
    (hacc : ¬ (type = CONFIG_TYPE_BOOL ∧ E.atoi c.value ≠ 0 ∧ E.atoi c.value ≠ 1)) :
    config_assign E o [c] =
      ((config_compare E c name type arg o).2.1, (config_compare E c name type arg o).2.2) := by
  have h := chain_of_first_match E c name type arg hacc option_table o hres
  simp [config_assign, h]

theorem mem_violations_iff (E : Env) (o : or_options_t) (e : Event) :
    e ∈ violations E o ↔ ∃ c ∈ checks E o, c.1 = true ∧ c.2 = e := by
  unfold violations
  simp only [List.mem_map, List.mem_filter]
  constructor
  · rintro ⟨c, ⟨hc, hv⟩, rfl⟩; exact ⟨c, hc, hv, rfl⟩
  · rintro ⟨c, hc, hv, rfl⟩; exact ⟨c, ⟨hc, hv⟩, rfl⟩

theorem validate_result_of_mem (E : Env) (o : or_options_t) (e : Event)
    (h : e ∈ (validate E o).events) : (validate E o).result = -1 := by
  rw [validate_events] at h
  rw [validate_result]
  split
  · rename_i hnil; rw [hnil] at h; cases h
  · rfl

/-- The LogLevel message is logged exactly when the LogLevel check fails. -/
theorem LogLevel_message_mem_iff (E : Env) (o : or_options_t) :
    log LOG_WARN "LogLevel must be one of err|warn|info|debug." [] ∈ (validate E o).events ↔
      ∃ l, o.LogLevel = some l ∧ l ≠ "err" ∧ l ≠ "warn" ∧ l ≠ "info" ∧ l ≠ "debug" := by
  rw [validate_events, mem_violations_iff]
  simp only [checks, List.mem_cons, List.mem_singleton, List.not_mem_nil, or_false,
    exists_eq_or_imp, exists_eq_left, decide_eq_true_eq, log, log_fn, Event.log.injEq,
    String.reduceEq, false_and, and_false, or_false, and_true, true_and, reduceCtorEq]

/-- The CoinWeight message is logged exactly when the CoinWeight check fails. -/
theorem CoinWeight_message_mem_iff (E : Env) (o : or_options_t) :
    log LOG_WARN "CoinWeight option must be >=0.0 and <1.0." [] ∈ (validate E o).events ↔
      (o.APPort > 1 ∧ (Double.lt o.CoinWeight Double.zero = true ∨
        Double.ge o.CoinWeight Double.one = true)) := by
  rw [validate_events, mem_violations_iff]
  simp only [checks, List.mem_cons, List.mem_singleton, List.not_mem_nil, or_false,
    exists_eq_or_imp, exists_eq_left, decide_eq_true_eq, log, log_fn, Event.log.injEq,
    String.reduceEq, false_and, and_false, or_false, false_or, and_true, true_and, reduceCtorEq]

/-! ## C12 -/

/-- C12. LogLevel translation is exact and case-sensitive: for every record
whose LogLevel string is `s`, the validation part of `getconfig` sets the
derived loglevel to LOG_ERR, LOG_WARN, LOG_INFO or LOG_DEBUG when `s` is
exactly "err", "warn", "info" or "debug", logging no LogLevel violation; for
every other `s` it logs "LogLevel must be one of err|warn|info|debug." and
returns -1. Whenever the config file opens and yields at least one entry,
`getconfig` returns that result and leaves that derived loglevel in the
record. -/
theorem C12_loglevel_translation (E : Env) (o : or_options_t) (s : String)
    (hs : o.LogLevel = some s) :
    (s = "err" → (validate E o).options.loglevel = LOG_ERR) ∧
      (s = "warn" → (validate E o).options.loglevel = LOG_WARN) ∧
      (s = "info" → (validate E o).options.loglevel = LOG_INFO) ∧
      (s = "debug" → (validate E o).options.loglevel = LOG_DEBUG) ∧
      (s = "err" ∨ s = "warn" ∨ s = "info" ∨ s = "debug" →
        log LOG_WARN "LogLevel must be one of err|warn|info|debug." [] ∉ (validate E o).events) ∧
      (s ≠ "err" → s ≠ "warn" → s ≠ "info" → s ≠ "debug" →
        log LOG_WARN "LogLevel must be one of err|warn|info|debug." [] ∈ (validate E o).events ∧
          (validate E o).result = -1) ∧
      (∀ (argv : List String) (cf : FILE),
        (config_open E (config_fname E argv)).1 = some cf → config_get_lines cf ≠ [] →
        merged_options E cf argv = o →
        (getconfig E argv).ret = (validate E o).result ∧
          (getconfig E argv).options.loglevel = (validate E o).options.loglevel) := by
  have hopt : (validate E o).options.loglevel = derived_loglevel o := by
    rw [validate_options]
  have hmem := LogLevel_message_mem_iff E o
  refine ⟨?_, ?_, ?_, ?_, ?_, ?_, ?_⟩
  · intro h; rw [hopt]; simp [derived_loglevel, hs, h]
  · intro h; rw [hopt]; simp [derived_loglevel, hs, h]
  · intro h; rw [hopt]; simp [derived_loglevel, hs, h]
  · intro h; rw [hopt]; simp [derived_loglevel, hs, h]
  · intro h hin
    obtain ⟨l, hl, e1, e2, e3, e4⟩ := hmem.mp hin
    rw [hs] at hl
    simp only [Option.some.injEq] at hl
    subst hl
    rcases h with h | h | h | h
    · exact e1 h
    · exact e2 h
    · exact e3 h
    · exact e4 h
  · intro e1 e2 e3 e4
    have hin := hmem.mpr ⟨s, hs, e1, e2, e3, e4⟩
    exact ⟨hin, validate_result_of_mem E o _ hin⟩
  · intro argv cf hopen hlines hm
    obtain ⟨h1, h2⟩ := getconfig_of_read E argv cf hopen hlines
    rw [hm] at h1 h2
    exact ⟨h1, by rw [h2]⟩

/-- C12, worked examples: "INFO", "Debug" and "inf" are each rejected, and
"debug" gives LOG_DEBUG. -/
theorem C12_witness_case_and_abbreviation :
    ({ default_options with LogLevel := some "INFO" } : or_options_t).LogLevel = some "INFO" ∧
      (validate (example_env []) { default_options with LogLevel := some "INFO" }).result = -1 ∧
      (validate (example_env []) { default_options with LogLevel := some "Debug" }).result = -1 ∧
      (validate (example_env []) { default_options with LogLevel := some "inf" }).result = -1 ∧
      (validate (example_env []) { default_options with LogLevel := some "debug" }).options.loglevel
        = LOG_DEBUG :=
  ⟨rfl,
    ((C12_loglevel_translation (example_env []) { default_options with LogLevel := some "INFO" }
      "INFO" rfl).2.2.2.2.2.1 (by decide) (by decide) (by decide) (by decide)).2,
    ((C12_loglevel_translation (example_env []) { default_options with LogLevel := some "Debug" }
      "Debug" rfl).2.2.2.2.2.1 (by decide) (by decide) (by decide) (by decide)).2,
    ((C12_loglevel_translation (example_env []) { default_options with LogLevel := some "inf" }
      "inf" rfl).2.2.2.2.2.1 (by decide) (by decide) (by decide) (by decide)).2,
    (C12_loglevel_translation (example_env []) { default_options with LogLevel := some "debug" }
      "debug" rfl).2.2.2.1 rfl⟩

/-! ## C13 -/

/-- C13. The CoinWeight bound is inclusive below, exclusive above, and applies
only when APPort > 1: on a record that satisfies every rule, putting APPort = 2
and CoinWeight = 1.0 makes the validation part log the CoinWeight violation
and return -1, putting APPort = 2 and CoinWeight = 0.0 leaves it returning 0,
and while APPort <= 1 every CoinWeight value (NaN and the infinities included)
leaves it returning 0; on any record with APPort <= 1 the CoinWeight violation
is not logged. -/
theorem C13_coinweight_bound (E : Env) (o : or_options_t) (h : satisfies_rules E o) :
    ((validate E { o with APPort := 2, CoinWeight := Double.one }).result = -1 ∧
        log LOG_WARN "CoinWeight option must be >=0.0 and <1.0." [] ∈
          (validate E { o with APPort := 2, CoinWeight := Double.one }).events) ∧
      (validate E { o with APPort := 2, CoinWeight := Double.zero }).result = 0 ∧
      (o.APPort ≤ 1 → ∀ cw : Double, (validate E { o with CoinWeight := cw }).result = 0) ∧
      (∀ r : or_options_t, r.APPort ≤ 1 →
        log LOG_WARN "CoinWeight option must be >=0.0 and <1.0." [] ∉ (validate E r).events) := by
  obtain ⟨b1, b2, b3, b4, b5, b6, b7, b8, b9, b10, b11, b12⟩ := h
  refine ⟨?_, ?_, ?_, ?_⟩
  · have hin : log LOG_WARN "CoinWeight option must be >=0.0 and <1.0." [] ∈
        (validate E { o with APPort := 2, CoinWeight := Double.one }).events := by
      rw [CoinWeight_message_mem_iff]
      exact ⟨by show (2 : Int) > 1; decide,
        Or.inr (by show Double.ge Double.one Double.one = true; decide)⟩
    exact ⟨validate_result_of_mem E _ _ hin, hin⟩
  · rw [validate_result_zero_iff_violations]
    apply violations_eq_nil_of_rules
    exact ⟨b1, b2, b3, b4, b5, b6, by show (0 : Int) ≤ 2; decide, b8,
      fun _ => ⟨by show Double.le Double.zero Double.zero = true; decide,
        by show Double.lt Double.zero Double.one = true; decide⟩, b10, b11, b12⟩
  · intro hap cw
    rw [validate_result_zero_iff_violations]
    apply violations_eq_nil_of_rules
    refine ⟨b1, b2, b3, b4, b5, b6, b7, b8, ?_, b10, b11, b12⟩
    intro h1
    exact absurd h1 (by show ¬ (1 < o.APPort); omega)
  · intro r hr hin
    rw [CoinWeight_message_mem_iff] at hin
    omega

/-- C13, worked example: the defaults with RouterFile set satisfy every rule. -/
theorem C13_witness_defaults :
    satisfies_rules (example_env []) { default_options with RouterFile := some "r" } ∧
      (validate (example_env [])
        { default_options with RouterFile := some "r", APPort := 2,
                               CoinWeight := Double.one }).result = -1 ∧
      (validate (example_env [])
        { default_options with RouterFile := some "r", APPort := 2,
                               CoinWeight := Double.zero }).result = 0 ∧
      (validate (example_env [])
        { default_options with RouterFile := some "r", CoinWeight := Double.nan }).result = 0 :=
  ⟨by decide,
    (C13_coinweight_bound (example_env []) { default_options with RouterFile := some "r" }
      (by decide)).1.1,
    (C13_coinweight_bound (example_env []) { default_options with RouterFile := some "r" }
      (by decide)).2.1,
    (C13_coinweight_bound (example_env []) { default_options with RouterFile := some "r" }
      (by decide)).2.2.1 (by decide) Double.nan⟩

theorem takeWhile_length_eq_iff {α : Type} (p : α → Bool) (l : List α) :
    (l.takeWhile p).length = l.length ↔ ∀ x ∈ l, p x = true := by
  induction l with
  | nil => simp
  | cons a rest ih =>
    cases hp : p a with
    | false => simp [List.takeWhile_cons, hp]
    | true => simp [List.takeWhile_cons, hp, ih]

theorem strspn_eq_strlen_iff (E : Env) (filename : String) :
    strspn filename E.CONFIG_LEGAL_FILENAME_CHARACTERS = strlen filename ↔
      legal_filename E filename := by
  unfold strspn strlen legal_filename
  rw [takeWhile_length_eq_iff]
  simp

/-! ## C14 -/

/-- C14. For every path with at least one character outside the allow-list,
`config_open` returns `NULL` without calling `fopen`; for a path made only of
allow-list characters it calls `fopen` with that path and returns what `fopen`
returns. When the config file name that `getconfig` settles on has a character
outside the allow-list, `getconfig` returns -1 with the record still at its
defaults after logging only the file name and "Unable to open configuration
file": no `fopen` call, no entry assigned, no validation. -/
theorem C14_illegal_filename_never_opened (E : Env) (filename : String) (argv : List String) :
    (¬ legal_filename E filename → config_open E filename = (none, [])) ∧
      (legal_filename E filename →
        config_open E filename = (E.fopen filename, [Event.fopen filename])) ∧
      (¬ legal_filename E (config_fname E argv) →
        (getconfig E argv).ret = -1 ∧
          (getconfig E argv).options = default_options ∧
          (getconfig E argv).events =
            [log LOG_DEBUG "Opening config file '%s'" [.s (config_fname E argv)],
              log LOG_WARN "Unable to open configuration file '%s'."
                [.s (config_fname E argv)]]) := by
  have hbad : ∀ f, ¬ legal_filename E f → config_open E f = (none, []) := by
    intro f hf
    unfold config_open
    rw [if_pos]
    rw [ne_eq, strspn_eq_strlen_iff]
    exact hf
  refine ⟨hbad filename, ?_, ?_⟩
  · intro hok
    unfold config_open
    rw [if_neg]
    rw [ne_eq, strspn_eq_strlen_iff, not_not]
    exact hok
  · intro hf
    simp [getconfig, hbad _ hf]

/-- C14, worked example: the name `bad name` given with `-f` has a blank,
which is outside the allow-list. -/
theorem C14_witness_blank_in_name :
    ¬ legal_filename (example_env []) "bad name" ∧
      config_fname (example_env []) ["tor", "-f", "bad name"] = "bad name" ∧
      config_open (example_env []) "bad name" = (none, []) ∧
      legal_filename (example_env []) "/etc/torrc" ∧
      config_open (example_env []) "/etc/torrc" = (some [], [Event.fopen "/etc/torrc"]) ∧
      (getconfig (example_env []) ["tor", "-f", "bad name"]).ret = -1 ∧
      (getconfig (example_env []) ["tor", "-f", "bad name"]).events =
        [log LOG_DEBUG "Opening config file '%s'" [.s "bad name"],
          log LOG_WARN "Unable to open configuration file '%s'." [.s "bad name"]] :=
  ⟨by unfold legal_filename; decide, by decide,
    (C14_illegal_filename_never_opened (example_env []) "bad name" []).1
      (by unfold legal_filename; decide),
    by unfold legal_filename; decide,
    (C14_illegal_filename_never_opened (example_env []) "/etc/torrc" []).2.1
      (by unfold legal_filename; decide),
    ((C14_illegal_filename_never_opened (example_env []) "" ["tor", "-f", "bad name"]).2.2
      (by unfold legal_filename; decide)).1,
    ((C14_illegal_filename_never_opened (example_env []) "" ["tor", "-f", "bad name"]).2.2
      (by unfold legal_filename; decide)).2.2⟩

/-! ## C15 -/

/-- C15. A malformed line is fatal: for every sequence of tokenizer results
that contains a malformed-line error, `config_get_lines` returns `NULL`
whatever pairs were parsed before it (the loop does so from every list built
so far), and when that is the stream of the config file `getconfig` returns
-1 with the record still at its defaults, its only events being the debug line
for the file name and the `fopen` call: no file entry is assigned, the command
line is not read, the validation part does not run. -/
theorem C15_malformed_line_is_fatal (E : Env) (argv : List String) (cf : FILE)
    (hmal : ParsedLine.malformed ∈ cf) :
    config_get_lines cf = [] ∧
      (∀ front, config_get_lines_loop cf front = []) ∧
      ((config_open E (config_fname E argv)).1 = some cf →
        (getconfig E argv).ret = -1 ∧
          (getconfig E argv).options = default_options ∧
          (getconfig E argv).events =
            [log LOG_DEBUG "Opening config file '%s'" [.s (config_fname E argv)],
              Event.fopen (config_fname E argv)]) := by
  have hloop := config_get_lines_loop_malformed cf hmal
  have hnil : config_get_lines cf = [] := hloop []
  exact ⟨hnil, hloop, fun hopen => getconfig_of_empty E argv cf hopen hnil⟩

/-- C15, worked example: a file with a good line, a malformed line and another
good line, and `-ORPort 443` on the command line. -/
theorem C15_witness_malformed_second_line :
    ParsedLine.malformed ∈
        ([.pair "RouterFile" "r", .malformed, .pair "ORPort" "1"] : FILE) ∧
      config_get_lines [.pair "RouterFile" "r", .malformed, .pair "ORPort" "1"] = [] ∧
      (getconfig (example_env [.pair "RouterFile" "r", .malformed, .pair "ORPort" "1"])
        ["tor", "-ORPort", "443"]).ret = -1 ∧
      (getconfig (example_env [.pair "RouterFile" "r", .malformed, .pair "ORPort" "1"])
        ["tor", "-ORPort", "443"]).options = default_options :=
  ⟨by decide,
    (C15_malformed_line_is_fatal (example_env []) []
      [.pair "RouterFile" "r", .malformed, .pair "ORPort" "1"] (by decide)).1,
    ((C15_malformed_line_is_fatal
      (example_env [.pair "RouterFile" "r", .malformed, .pair "ORPort" "1"])
      ["tor", "-ORPort", "443"] [.pair "RouterFile" "r", .malformed, .pair "ORPort" "1"]
      (by decide)).2.2 (by decide)).1,
    ((C15_malformed_line_is_fatal
      (example_env [.pair "RouterFile" "r", .malformed, .pair "ORPort" "1"])
      ["tor", "-ORPort", "443"] [.pair "RouterFile" "r", .malformed, .pair "ORPort" "1"]
      (by decide)).2.2 (by decide)).2.1⟩

/-! ### The command-line entries -/

theorem skip_dashes_eq_dropWhile (l : List Char) :
    skip_dashes l = l.dropWhile (fun ch => ch = '-') := by
  induction l with
  | nil => rfl
  | cons c rest ih =>
    by_cases h : c = '-'
    · simp [skip_dashes, List.dropWhile_cons, h, ih]
    · simp [skip_dashes, List.dropWhile_cons, h]

/-- The entries of a list of arguments taken two at a time. -/
theorem config_get_commandlines_loop_eq :
    ∀ (l : List String) (front : List config_line),
      (config_get_commandlines_loop l front).1 =
        (((adjacent_pairs l).filter (fun p => p.1 ≠ "-f")).map
          (fun p => ({ key := strip_leading_dashes p.1, value := p.2 } : config_line))).reverse
          ++ front
  | [], front => by simp [config_get_commandlines_loop, adjacent_pairs]
  | [_], front => by simp [config_get_commandlines_loop, adjacent_pairs]
  | a :: b :: rest, front => by
    have ih := config_get_commandlines_loop_eq rest
    by_cases h : a = "-f"
    · simp [config_get_commandlines_loop, adjacent_pairs, strcmp_eq_zero_iff, h, ih]
    · simp [config_get_commandlines_loop, adjacent_pairs, strcmp_eq_zero_iff, h, ih,
        strip_leading_dashes, skip_dashes_eq_dropWhile, tor_strdup]

theorem adjacent_pairs_append_single :
    ∀ (l : List String) (x : String), l.length % 2 = 0 →
      adjacent_pairs (l ++ [x]) = adjacent_pairs l
  | [], x, _ => by simp [adjacent_pairs]
  | [_], x, h => by simp at h
  | a :: b :: rest, x, h => by
    have hrest : rest.length % 2 = 0 := by
      simp only [List.length_cons] at h; omega
    simp [adjacent_pairs, adjacent_pairs_append_single rest x hrest]

/-! ### The scans with explicit indices -/

theorem drop_two_of_lt (argv : List String) (i : Nat) (h : i + 1 < argv.length) :
    argv.drop i = argv_at argv i :: argv_at argv (i + 1) :: argv.drop (i + 2) := by
  have h0 : i < argv.length := by omega
  rw [List.drop_eq_getElem_cons h0, List.drop_eq_getElem_cons h]
  simp [argv_at, List.getD_eq_getElem?_getD, List.getElem?_eq_getElem h0,
    List.getElem?_eq_getElem h]

theorem drop_short (argv : List String) (i : Nat) (h : ¬ i + 1 < argv.length) :
    argv.drop i = [] ∨ ∃ a, argv.drop i = [a] := by
  have hlen : (argv.drop i).length ≤ 1 := by
    rw [List.length_drop]; omega
  cases hd : argv.drop i with
  | nil => exact Or.inl rfl
  | cons a rest =>
    cases rest with
    | nil => exact Or.inr ⟨a, rfl⟩
    | cons b r => rw [hd] at hlen; simp at hlen

theorem index_test_iff (argv : List String) (i : Nat) :
    (i : Int) < (argv.length : Int) - 1 ↔ i + 1 < argv.length := by
  omega

theorem config_get_commandlines_indexed_spec (argv : List String) :
    ∀ (fuel i : Nat) (front : List config_line), argv.length ≤ fuel + i →
      ∃ r, config_get_commandlines_indexed argv (fuel + 1) i front = some r ∧
        r.value = (config_get_commandlines_loop (argv.drop i) front).1 ∧
        (∀ k ∈ r.reads, i ≤ k ∧ k < argv.length) ∧
        r.iterations ≤ argv.length - i := by
  intro fuel
  induction fuel with
  | zero =>
    intro i front h
    have hno : ¬ i + 1 < argv.length := by omega
    have hnot : ¬ ((i : Int) < (argv.length : Int) - 1) := by
      rw [index_test_iff]; exact hno
    refine ⟨{ value := front, reads := [], iterations := 0 }, ?_, ?_, ?_, ?_⟩
    · simp [config_get_commandlines_indexed, hnot]
    · rcases drop_short argv i hno with h0 | ⟨a, h1⟩
      · rw [h0]; rfl
      · rw [h1]; rfl
    · intro k hk; cases hk
    · exact Nat.zero_le _
  | succ n ih =>
    intro i front h
    by_cases hc : i + 1 < argv.length
    · have htest : (i : Int) < (argv.length : Int) - 1 := (index_test_iff argv i).mpr hc
      have hdrop := drop_two_of_lt argv i hc
      by_cases hf : strcmp (argv_at argv i) "-f" = 0
      · obtain ⟨r, hr, hv, hreads, hit⟩ := ih (i + 2) front (by omega)
        refine ⟨{ r with reads := i :: r.reads, iterations := r.iterations + 1 }, ?_, ?_, ?_, ?_⟩
        · rw [config_get_commandlines_indexed]
          simp [htest, hf, hr]
        · rw [hdrop]
          simp only [config_get_commandlines_loop, hf, if_true]
          exact hv
        · intro k hk
          simp only [List.mem_cons] at hk
          rcases hk with rfl | hk
          · omega
          · have := hreads k hk; omega
        · show r.iterations + 1 ≤ argv.length - i
          omega
      · obtain ⟨r, hr, hv, hreads, hit⟩ := ih (i + 2)
          ({ key := tor_strdup ⟨skip_dashes (argv_at argv i).data⟩,
             value := tor_strdup (argv_at argv (i + 1)) } :: front) (by omega)
        refine ⟨{ r with reads := i :: i :: (i + 1) :: r.reads,
                         iterations := r.iterations + 1 }, ?_, ?_, ?_, ?_⟩
        · rw [config_get_commandlines_indexed]
          simp [htest, hf, hr]
        · rw [hdrop]
          simp only [config_get_commandlines_loop, hf, if_false]
          exact hv
        · intro k hk
          simp only [List.mem_cons] at hk
          rcases hk with rfl | rfl | rfl | hk
          · omega
          · omega
          · omega
          · have := hreads k hk; omega
        · show r.iterations + 1 ≤ argv.length - i
          omega
    · have hnot : ¬ ((i : Int) < (argv.length : Int) - 1) := by
        rw [index_test_iff]; exact hc
      refine ⟨{ value := front, reads := [], iterations := 0 }, ?_, ?_, ?_, ?_⟩
      · rw [config_get_commandlines_indexed]
        simp [hnot]
      · rcases drop_short argv i hc with h0 | ⟨a, h1⟩
        · rw [h0]; rfl
        · rw [h1]; rfl
      · intro k hk; cases hk
      · exact Nat.zero_le _

theorem find_f_indexed_spec (argv : List String) :
    ∀ (fuel i : Nat), argv.length ≤ fuel + i →
      ∃ r, find_f_indexed argv (fuel + 1) i = some r ∧
        (if (r.value : Int) < (argv.length : Int) - 1 then some (argv_at argv (r.value + 1))
          else none) = find_config_fname (argv.drop i) ∧
        (∀ k ∈ r.reads, i ≤ k ∧ k < argv.length) ∧
        i ≤ r.value ∧
        r.iterations ≤ argv.length - i := by
  intro fuel
  induction fuel with
  | zero =>
    intro i h
    have hno : ¬ i + 1 < argv.length := by omega
    have hnot : ¬ ((i : Int) < (argv.length : Int) - 1) := by
      rw [index_test_iff]; exact hno
    refine ⟨{ value := i, reads := [], iterations := 0 }, ?_, ?_, ?_, ?_, ?_⟩
    · simp [find_f_indexed, hnot]
    · simp only [hnot, if_false]
      rcases drop_short argv i hno with h0 | ⟨a, h1⟩
      · rw [h0]; rfl
      · rw [h1]; rfl
    · intro k hk; cases hk
    · exact Nat.le_refl _
    · exact Nat.zero_le _
  | succ n ih =>
    intro i h
    by_cases hc : i + 1 < argv.length
    · have htest : (i : Int) < (argv.length : Int) - 1 := (index_test_iff argv i).mpr hc
      have hdrop := drop_two_of_lt argv i hc
      by_cases hf : strcmp (argv_at argv i) "-f" = 0
      · refine ⟨{ value := i, reads := [i], iterations := 0 }, ?_, ?_, ?_, ?_, ?_⟩
        · rw [find_f_indexed]
          simp [htest, hf]
        · simp only [htest, if_true]
          rw [hdrop]
          simp [find_config_fname, hf]
        · intro k hk
          simp only [List.mem_singleton] at hk
          omega
        · exact Nat.le_refl _
        · exact Nat.zero_le _
      · obtain ⟨r, hr, hv, hreads, hle, hit⟩ := ih (i + 1) (by omega)
        refine ⟨{ r with reads := i :: r.reads, iterations := r.iterations + 1 },
          ?_, ?_, ?_, ?_, ?_⟩
        · rw [find_f_indexed]
          simp [htest, hf, hr]
        · show (if (r.value : Int) < (argv.length : Int) - 1 then
              some (argv_at argv (r.value + 1)) else none) = find_config_fname (argv.drop i)
          rw [hv, hdrop]
          have hd1 : argv.drop (i + 1) = argv_at argv (i + 1) :: argv.drop (i + 2) := by
            have := congrArg List.tail hdrop
            simpa [List.tail_drop] using this
          rw [hd1]
          simp [find_config_fname, hf]
        · intro k hk
          simp only [List.mem_cons] at hk
          rcases hk with rfl | hk
          · omega
          · have := hreads k hk; omega
        · show i ≤ r.value
          omega
        · show r.iterations + 1 ≤ argv.length - i
          omega
    · have hnot : ¬ ((i : Int) < (argv.length : Int) - 1) := by
        rw [index_test_iff]; exact hc
      refine ⟨{ value := i, reads := [], iterations := 0 }, ?_, ?_, ?_, ?_, ?_⟩
      · rw [find_f_indexed]
        simp [hnot]
      · simp only [hnot, if_false]
        rcases drop_short argv i hc with h0 | ⟨a, h1⟩
        · rw [h0]; rfl
        · rw [h1]; rfl
      · intro k hk; cases hk
      · exact Nat.le_refl _
      · exact Nat.zero_le _

/-! ## C16 -/

/-- C16. For every argument list, `config_get_commandlines` returns the
reverse of the sequence obtained by scanning `argv[1..]` in adjacent pairs,
skipping each pair whose first element is exactly `-f`, and mapping every
other pair (flag, value) to the entry (flag with all leading `-` removed,
value); the loop with explicit indices, as the source writes it, returns the
same list; and one more argument after complete pairs, a trailing unpaired
argument, adds no entry. -/
theorem C16_commandline_entries_reversed (argv : List String) :
    (config_get_commandlines argv).1 = (commandline_entries argv).reverse ∧
      (∀ fuel, argv.length ≤ fuel →
        (config_get_commandlines_indexed argv (fuel + 1) 1 []).map (fun r => r.value) =
          some (commandline_entries argv).reverse) ∧
      (∀ x : String, argv.length % 2 = 1 →
        (config_get_commandlines (argv ++ [x])).1 = (config_get_commandlines argv).1) := by
  have hlist : ∀ a : List String,
      (config_get_commandlines a).1 = (commandline_entries a).reverse := by
    intro a
    unfold config_get_commandlines commandline_entries
    rw [config_get_commandlines_loop_eq, List.append_nil]
  refine ⟨hlist argv, ?_, ?_⟩
  · intro fuel hfuel
    obtain ⟨r, hr, hv, _, _⟩ := config_get_commandlines_indexed_spec argv fuel 1 [] (by omega)
    rw [hr, Option.map_some', hv, ← hlist argv]
    have htail : argv.drop 1 = argv.tail := by cases argv <;> rfl
    simp [config_get_commandlines, htail]
  · intro x hodd
    rw [hlist, hlist]
    cases argv with
    | nil => simp at hodd
    | cons a0 rest =>
      have hrest : rest.length % 2 = 0 := by
        simp only [List.length_cons] at hodd; omega
      simp [commandline_entries, adjacent_pairs_append_single rest x hrest]

/-- C16, worked example: a `-f` pair in the middle is skipped, leading dashes
are removed, and the last argument has no partner. -/
theorem C16_witness_mixed_arguments :
    (["tor", "-ORPort", "443", "-f", "torrc", "--Nickname", "x", "-APPort"] : List String).length
        ≤ 8 ∧
      (config_get_commandlines
        ["tor", "-ORPort", "443", "-f", "torrc", "--Nickname", "x", "-APPort"]).1 =
        [{ key := "Nickname", value := "x" }, { key := "ORPort", value := "443" }] ∧
      (config_get_commandlines_indexed
        ["tor", "-ORPort", "443", "-f", "torrc", "--Nickname", "x", "-APPort"] 9 1 []).map
          (fun r => r.value) =
        some [{ key := "Nickname", value := "x" }, { key := "ORPort", value := "443" }] :=
  ⟨by decide,
    (C16_commandline_entries_reversed
      ["tor", "-ORPort", "443", "-f", "torrc", "--Nickname", "x", "-APPort"]).1.trans
      (by decide),
    ((C16_commandline_entries_reversed
      ["tor", "-ORPort", "443", "-f", "torrc", "--Nickname", "x", "-APPort"]).2.1 8
      (by decide)).trans (by decide)⟩

/-! ## C17 -/

/-- C17. Argument scanning never reads past the argument list and terminates:
for every argument list (`argc` its length, zero included), the loop of
`config_get_commandlines` and the search for `-f` in `getconfig`, run with
room for more than `argc` iterations, both finish; every index of `argv` they
read is at least 1 and strictly less than `argc`; each loop body runs at most
`argc` times; and they give the entries and the file name of the embedding
used elsewhere. -/
theorem C17_argument_scans_stay_in_bounds (argv : List String) (fuel : Nat)
    (hfuel : argv.length ≤ fuel) :
    ∃ (r1 : Scan (List config_line)) (r2 : Scan (Option String)),
      config_get_commandlines_indexed argv (fuel + 1) 1 [] = some r1 ∧
        find_config_fname_indexed argv (fuel + 1) = some r2 ∧
        (∀ k ∈ r1.reads, 1 ≤ k ∧ k < argv.length) ∧
        (∀ k ∈ r2.reads, 1 ≤ k ∧ k < argv.length) ∧
        r1.iterations ≤ argv.length ∧ r2.iterations ≤ argv.length ∧
        r1.value = (config_get_commandlines argv).1 ∧
        r2.value = find_config_fname argv.tail := by
  obtain ⟨r1, hr1, hv1, hreads1, hit1⟩ :=
    config_get_commandlines_indexed_spec argv fuel 1 [] (by omega)
  obtain ⟨r, hr, hv, hreads, hle, hit⟩ := find_f_indexed_spec argv fuel 1 (by omega)
  have htail : argv.drop 1 = argv.tail := by cases argv <;> rfl
  rw [htail] at hv1 hv
  by_cases hc : (r.value : Int) < (argv.length : Int) - 1
  · have hit2 : r.iterations ≤ argv.length := by omega
    refine ⟨r1, (⟨some (argv_at argv (r.value + 1)), r.reads ++ [r.value + 1],
        r.iterations⟩ : Scan (Option String)),
      hr1, ?_, hreads1, ?_, (by omega), hit2, hv1, ?_⟩
    · simp [find_config_fname_indexed, hr, hc]
    · intro k hk
      simp only [List.mem_append, List.mem_singleton] at hk
      rcases hk with hk | rfl
      · exact hreads k hk
      · omega
    · rw [if_pos hc] at hv; exact hv
  · have hit2 : r.iterations ≤ argv.length := by omega
    refine ⟨r1, (⟨none, r.reads, r.iterations⟩ : Scan (Option String)),
      hr1, ?_, hreads1, hreads, (by omega), hit2, hv1, ?_⟩
    · simp [find_config_fname_indexed, hr, hc]
    · rw [if_neg hc] at hv; exact hv

/-- C17, worked examples: an odd count with a trailing flag, a trailing `-f`,
and no argument at all. -/
theorem C17_witness_trailing_flag :
    (["tor", "-ORPort", "443", "-Nickname"] : List String).length ≤ 4 ∧
      config_get_commandlines_indexed ["tor", "-ORPort", "443", "-Nickname"] 5 1 [] =
        some { value := [{ key := "ORPort", value := "443" }], reads := [1, 1, 2],
               iterations := 1 } ∧
      find_config_fname_indexed ["tor", "-ORPort", "443", "-f"] 5 =
        some { value := none, reads := [1, 2], iterations := 2 } ∧
      find_config_fname_indexed [] 1 = some { value := none, reads := [], iterations := 0 } ∧
      ∃ (r1 : Scan (List config_line)) (r2 : Scan (Option String)),
        config_get_commandlines_indexed ["tor", "-ORPort", "443", "-Nickname"] 5 1 [] = some r1 ∧
          find_config_fname_indexed ["tor", "-ORPort", "443", "-Nickname"] 5 = some r2 ∧
          (∀ k ∈ r1.reads, 1 ≤ k ∧ k < 4) ∧ (∀ k ∈ r2.reads, 1 ≤ k ∧ k < 4) :=
  ⟨by decide, by decide, by decide, by decide,
    (C17_argument_scans_stay_in_bounds ["tor", "-ORPort", "443", "-Nickname"] 4
      (by decide)).imp fun _ h1 => h1.imp fun _ h2 => ⟨h2.1, h2.2.1, h2.2.2.1, h2.2.2.2.1⟩⟩

theorem fopen_of_config_open (E : Env) (filename : String) (cf : FILE)
    (h : (config_open E filename).1 = some cf) : E.fopen filename = some cf := by
  unfold config_open at h
  split at h
  · cases h
  · exact h

/-- When the file opens and `config_get_lines` returns `NULL`, `getconfig`
returns with the handle still open. -/
theorem getconfig_leaves_handle_open (E : Env) (argv : List String) (cf : FILE)
    (hopen : (config_open E (config_fname E argv)).1 = some cf)
    (hnil : config_get_lines cf = []) :
    handle_open_after E false (getconfig E argv).events = true ∧
      Event.fclose ∉ (getconfig E argv).events := by
  obtain ⟨_, _, hev⟩ := getconfig_of_empty E argv cf hopen hnil
  rw [hev]
  constructor
  · simp [handle_open_after, log, fopen_of_config_open E _ cf hopen]
  · simp [log]

/-! ## C18 -/

/-- C18 (a defect of the code against the claim). The claim: once opened, the
config file handle is closed on every exit path of `getconfig`. The code with
an empty config file, and with a config file whose second line is malformed:
the file opens, `config_get_lines` returns `NULL`, and `getconfig` returns -1
at `if(!cl) return -1;` with no `fclose` among its calls, so the handle is
still open at return. On the path where the read succeeds the same handle is
closed by `config_close`. -/
theorem C18_handle_left_open_on_early_return :
    ((config_open (example_env []) (config_fname (example_env []) ["tor"])).1 = some [] ∧
        (getconfig (example_env []) ["tor"]).ret = -1 ∧
        (getconfig (example_env []) ["tor"]).events =
          [log LOG_DEBUG "Opening config file '%s'" [.s "/usr/local/etc/tor/torrc"],
            Event.fopen "/usr/local/etc/tor/torrc"] ∧
        handle_open_after (example_env []) false (getconfig (example_env []) ["tor"]).events
          = true) ∧
      ((config_open (example_env [.pair "RouterFile" "r", .malformed])
          (config_fname (example_env [.pair "RouterFile" "r", .malformed]) ["tor"])).1 =
          some [.pair "RouterFile" "r", .malformed] ∧
        (getconfig (example_env [.pair "RouterFile" "r", .malformed]) ["tor"]).ret = -1 ∧
        Event.fclose ∉ (getconfig (example_env [.pair "RouterFile" "r", .malformed])
          ["tor"]).events ∧
        handle_open_after (example_env [.pair "RouterFile" "r", .malformed]) false
          (getconfig (example_env [.pair "RouterFile" "r", .malformed]) ["tor"]).events = true) ∧
      (Event.fclose ∈ (getconfig (example_env file_orport_twice) ["tor"]).events ∧
        handle_open_after (example_env file_orport_twice) false
          (getconfig (example_env file_orport_twice) ["tor"]).events = false) := by
  decide

/-! ## C19 -/

/-- C19. Whenever the config file opens but yields zero entries (no
malformed line and no pair: empty, or only blank and comment lines, which the
tokenizer skips), `getconfig` returns -1 for every command line, with the
record still at its defaults and with the debug line for the file name and
the `fopen` call as its only events: nothing is assigned, the command line is
not read, the validation part does not run. -/
theorem C19_no_entries_fails_before_command_line (E : Env) (argv : List String) (cf : FILE)
    (hopen : (config_open E (config_fname E argv)).1 = some cf)
    (hmal : ParsedLine.malformed ∉ cf)
    (hzero : file_entries cf = []) :
    (getconfig E argv).ret = -1 ∧
      (getconfig E argv).options = default_options ∧
      (getconfig E argv).events =
        [log LOG_DEBUG "Opening config file '%s'" [.s (config_fname E argv)],
          Event.fopen (config_fname E argv)] := by
  have hnil : config_get_lines cf = [] := by
    rw [config_get_lines_eq cf hmal, hzero]; rfl
  exact getconfig_of_empty E argv cf hopen hnil

/-- C19, worked example: an empty file and the arguments `-RouterFile r`,
which alone would give a record that satisfies every rule. -/
theorem C19_witness_routerfile_argument :
    (config_open (example_env []) (config_fname (example_env []) ["tor", "-RouterFile", "r"])).1
        = some [] ∧
      ParsedLine.malformed ∉ ([] : FILE) ∧
      file_entries [] = [] ∧
      satisfies_rules (example_env [])
        (config_assign (example_env []) default_options
          (config_get_commandlines ["tor", "-RouterFile", "r"]).1).1 ∧
      (validate (example_env [])
        (config_assign (example_env []) default_options
          (config_get_commandlines ["tor", "-RouterFile", "r"]).1).1).result = 0 ∧
      (getconfig (example_env []) ["tor", "-RouterFile", "r"]).ret = -1 ∧
      (getconfig (example_env []) ["tor", "-RouterFile", "r"]).options = default_options :=
  ⟨by decide, by decide, by decide, by decide, by decide,
    (C19_no_entries_fails_before_command_line (example_env []) ["tor", "-RouterFile", "r"] []
      (by decide) (by decide) (by decide)).1,
    (C19_no_entries_fails_before_command_line (example_env []) ["tor", "-RouterFile", "r"] []
      (by decide) (by decide) (by decide)).2.1⟩

/-! ## C20 -/

theorem skip_dashes_of_all_dashes (l : List Char) (h : ∀ ch ∈ l, ch = '-') :
    skip_dashes l = [] := by
  induction l with
  | nil => rfl
  | cons c rest ih =>
    have hc : c = '-' := h c (List.mem_cons_self _ _)
    simp [skip_dashes, hc, ih (fun ch hch => h ch (List.mem_cons_of_mem _ hch))]

/-- C20. An entry with an empty key matches the first table entry: for
every record and value `v`, `config_assign` on the entry with the empty string
as key sets LogLevel to `v` and changes nothing else in the record, logging
the debug line for a recognised keyword and no warning (so no "Ignoring
unknown keyword"); and `config_get_commandlines` produces that entry from any
flag that consists only of `-` characters, such as `--`. -/
theorem C20_empty_key_sets_loglevel (E : Env) (o : or_options_t) (v : String) :
    resolve "" = some ("LogLevel", CONFIG_TYPE_STRING, .LogLevel) ∧
      (config_assign E o [{ key := "", value := v }]).1 = { o with LogLevel := some v } ∧
      (config_assign E o [{ key := "", value := v }]).2 =
        [log_fn LOG_DEBUG "Recognized keyword '%s' as %s, using value '%s'."
          [.s "", .s "LogLevel", .s v]] ∧
      log_fn LOG_WARN "Ignoring unknown keyword '%s'." [.s ""] ∉
        (config_assign E o [{ key := "", value := v }]).2 ∧
      (∀ prog flag : String, (∀ ch ∈ flag.data, ch = '-') →
        (config_get_commandlines [prog, flag, v]).1 = [{ key := "", value := v }]) := by
  have hres : resolve "" = some ("LogLevel", CONFIG_TYPE_STRING, .LogLevel) := by decide
  have hsingle := config_assign_single_of_first_match E o { key := "", value := v }
    "LogLevel" CONFIG_TYPE_STRING .LogLevel hres (by simp)
  have hcc : config_compare E { key := "", value := v } "LogLevel" CONFIG_TYPE_STRING .LogLevel o
      = (1, { o with LogLevel := some v },
          [log_fn LOG_DEBUG "Recognized keyword '%s' as %s, using value '%s'."
            [.s "", .s "LogLevel", .s v]]) := by
    simp [config_compare, strncasecmp, strlen, strncasecmp_chars, store_string, tor_strdup]
  rw [hsingle, hcc]
  refine ⟨hres, rfl, rfl, by simp [log_fn], ?_⟩
  intro prog flag hflag
  have hne : ¬ strcmp flag "-f" = 0 := by
    rw [strcmp_eq_zero_iff]
    intro hf
    have := hflag 'f' (by rw [hf]; decide)
    exact absurd this (by decide)
  have hkey : (⟨skip_dashes flag.data⟩ : String) = "" := by
    rw [skip_dashes_of_all_dashes flag.data hflag]
  simp [config_get_commandlines, config_get_commandlines_loop, hne, hkey, tor_strdup]

/-- C20, worked example: the arguments `-- debug` give the entry with the
empty key and value `debug`, which sets LogLevel to "debug". -/
theorem C20_witness_double_dash :
    (∀ ch ∈ "--".data, ch = '-') ∧
      (config_get_commandlines ["tor", "--", "debug"]).1 = [{ key := "", value := "debug" }] ∧
      (config_assign (example_env []) default_options [{ key := "", value := "debug" }]).1 =
        { default_options with LogLevel := some "debug" } :=
  ⟨by decide,
    (C20_empty_key_sets_loglevel (example_env []) default_options "debug").2.2.2.2 "tor" "--"
      (by decide),
    (C20_empty_key_sets_loglevel (example_env []) default_options "debug").2.1⟩

end TorConfig
